import Mathlib

/-!
# iVisitor: the visitor-management server (Server/index.js)

A shallow embedding of the request handlers of `Server/index.js` over an
explicit store (the two tables reached through the ORM client), followed by
theorems about request intake, status transitions, approval links, guard
verification, exit marking and listing.

Conventions of the embedding:

* a handler is a function from the store and the request's inputs to an
  `Outcome`: the store afterwards, the HTTP response and the mails handed
  to the mail transport;
* whatever a handler reads from outside the store is an argument: the
  value drawn by `Math.random()`, the hex token of `crypto.randomBytes`,
  the database clock (`CURRENT_DATE`, `CURRENT_TIME`, `createdAt`), the
  clock of the server process (`new Date()`), the mail transport and the
  outcome of the resident insertion;
* a path or body id is the integer `parseInt` produced from it, and the
  other fields of a path or body are text;
* `status`, `verificationCode` and `approvalToken` are text columns, as the
  handlers treat them; ids come from a sequence, and a visitor's resident is
  the resident with its `residentEmail`;
* the date is a day number and a time is what `getHours()` and
  `getMinutes()` read from it; the value of `Math.random()` is a rational
  number that is a binary64 number, and `1000 + r * 9000` is computed with
  the rounding of binary64 arithmetic.
-/

namespace IVisitor

/-! ## Data model -/

/-- Hours and minutes of a time value, as `getHours()` and `getMinutes()`
read them. -/
structure TimeOfDay where
  hours : Nat
  minutes : Nat
deriving DecidableEq, Repr

/-- Row of the residents table. -/
structure Resident where
  id : Nat
  name : String
  email : String
deriving DecidableEq, Repr

/-- Row of the visitors table. -/
structure Visitor where
  id : Nat
  visitorName : String
  visitorEmail : String
  residentName : String
  residentEmail : String
  visitReason : String
  carNumber : Option String
  status : String
  verificationCode : String
  approvalToken : String
  inDate : Option Nat
  inTime : Option TimeOfDay
  outDate : Option Nat
  outTime : Option TimeOfDay
  createdAt : Nat
deriving DecidableEq, Repr

/-- The database: both tables and the next value of each id sequence. -/
structure Store where
  visitors : List Visitor
  residents : List Resident
  nextVisitorId : Nat
  nextResidentId : Nat
deriving DecidableEq, Repr

/-- The database before any request. -/
def Store.empty : Store :=
  { visitors := [], residents := [], nextVisitorId := 1, nextResidentId := 1 }

/-- Value of `CURRENT_DATE` and `CURRENT_TIME` in the database. -/
structure DbClock where
  date : Nat
  time : TimeOfDay
deriving DecidableEq, Repr

/-- Mail handed to `transporter.sendMail`. -/
structure Mail where
  recipient : String
  subject : String
deriving DecidableEq, Repr

/-- The mail transport: whether `transporter` is set, and whether
`sendMail` resolves (otherwise it throws). -/
structure MailEnv where
  transporter : Bool
  delivers : Bool
deriving DecidableEq, Repr

/-- What `prisma.resident.create` does in request intake: it inserts the
row (`created`); or it throws the unique-constraint error P2002 because
another request inserted a resident with this email after the lookup
(`uniqueViolation`), where `winner` is the name on that row when the re-fetch
still finds it and `none` when the re-fetch finds nothing; or it throws any
other error (`failure`). -/
inductive ResidentCreate where
  | created
  | uniqueViolation (winner : Option String)
  | failure
deriving DecidableEq, Repr

/-- Errors thrown inside a handler and reported through `err.message`. -/
inductive Thrown where
  | recordNotFound
  | nullRecord
  | residentCreateFailed
  | invalidValue
deriving DecidableEq, Repr

/-- The HTML pages of the link routes: `successPage(message, details)` and
`errorPage(message)`. -/
inductive Page where
  | success (message : String) (details : String)
  | error (message : String)
deriving DecidableEq, Repr

/-- Visitor record as it is sent in a JSON response: the row, the resident
joined by `include`, and the two formatted times when they are attached. -/
structure VisitorView where
  visitor : Visitor
  resident : Option Resident
  formattedTime : Option String
  formattedOutTime : Option String
deriving DecidableEq, Repr

/-- Body of a JSON response. -/
inductive Body where
  | record (v : VisitorView)
  | records (vs : List VisitorView)
  | error (message : String)
  | thrown (e : Thrown) (withStack : Bool)
deriving DecidableEq, Repr

/-- HTTP response: `res.status(code).json(body)` or `res.send(page)`. -/
inductive Response where
  | json (code : Nat) (body : Body)
  | html (page : Page)
deriving DecidableEq, Repr

/-- Result of a handler. -/
structure Outcome where
  store : Store
  response : Response
  sent : List Mail
deriving DecidableEq, Repr

/-- Fields of the body of `POST /api/visitor-request`. -/
structure RequestBody where
  visitorName : String
  visitorEmail : String
  residentName : String
  residentEmail : String
  visitReason : String
  carNumber : Option String
deriving DecidableEq, Repr

/-! ## Time formatting -/

/-- `String.prototype.padStart(n, c)` for a one-character pad. -/
def padStart (s : String) (n : Nat) (c : Char) : String :=
  String.mk (List.replicate (n - s.length) c) ++ s

/-- `hours % 12 || 12`. -/
def hours12 (hours : Nat) : Nat :=
  if hours % 12 = 0 then 12 else hours % 12

/-- `hours >= 12 ? 'PM' : 'AM'`. -/
def ampm (hours : Nat) : String :=
  if hours ≥ 12 then "PM" else "AM"

/-- The 12-hour string built in guard verification, exit marking and
listing: hours12, a colon, the minutes padded to two characters, a blank and
the AM/PM mark. -/
def formatTime (t : TimeOfDay) : String :=
  toString (hours12 t.hours) ++ ":" ++ padStart (toString t.minutes) 2 '0' ++ " " ++ ampm t.hours

/-! ## Table access -/

/-- Row with the given id (`findUnique` by id). -/
def findVisitor (s : Store) (id : Nat) : Option Visitor :=
  s.visitors.find? (fun v => v.id == id)

/-- Resident with the given email (`findUnique` by email). -/
def findResident (s : Store) (email : String) : Option Resident :=
  s.residents.find? (fun r => r.email == email)

/-- Modelled from the spec: the relation from a visitor to its resident is
declared in the database schema, which is not among the sources; the spec
makes the resident email the key of resident identity, so the resident joined
by the `include` option is the one with the visitor's `residentEmail`. -/
def residentOf (s : Store) (v : Visitor) : Option Resident :=
  findResident s v.residentEmail

/-- Applies `f` to the rows with the given id and keeps the others. -/
def mapRow (s : Store) (id : Nat) (f : Visitor → Visitor) : Store :=
  { s with visitors := s.visitors.map (fun v => if v.id = id then f v else v) }

/-- The ORM call `visitor.update` by id: it throws when no row has the id,
otherwise it writes the row and returns it. -/
def updateRow (s : Store) (id : Nat) (f : Visitor → Visitor) : Except Thrown (Store × Visitor) :=
  match findVisitor s id with
  | none => .error .recordNotFound
  | some v => .ok (mapRow s id f, f v)

/-- Best-effort send: the mail goes out when the transport is set and
`sendMail` resolves; a throw is caught and logged. -/
def sendMail (env : MailEnv) (m : Mail) : List Mail :=
  if env.transporter && env.delivers then [m] else []

/-- A row as a JSON record without attached fields. -/
def plain (v : Visitor) : VisitorView :=
  { visitor := v, resident := none, formattedTime := none, formattedOutTime := none }

/-! ## Handlers -/

/-- Handler of `GET /api/visitor/:id`. -/
def getVisitor (s : Store) (id : Nat) : Outcome :=
  match findVisitor s id with
  | none => { store := s, response := .json 404 (.error "Visitor not found"), sent := [] }
  | some v =>
    { store := s
      response := .json 200 (.record { plain v with resident := residentOf s v })
      sent := [] }

/-- Rounding of a rational to the nearest integer, ties to the even one. -/
def roundNearestEven (q : ℚ) : ℤ :=
  if q - ⌊q⌋ < 1 / 2 then ⌊q⌋
  else if 1 / 2 < q - ⌊q⌋ then ⌊q⌋ + 1
  else if ⌊q⌋ % 2 = 0 then ⌊q⌋ else ⌊q⌋ + 1

/-- Exponent of the unit in the last place of the binary64 format at a
positive `x`: 52 below the binary exponent of `x`, and -1074 in the
subnormal range. -/
def ulpExponent (x : ℚ) : ℤ := max (Int.log 2 x - 52) (-1074)

/-- The result of a binary64 operation whose exact value is `x`: the
nearest number with a 53-bit significand, ties to even. The values met here
stay below 2^14, so overflow does not arise. -/
def roundBinary64 (x : ℚ) : ℚ :=
  if x = 0 then 0
  else if 0 < x then roundNearestEven (x / 2 ^ ulpExponent x) * 2 ^ ulpExponent x
  else -(roundNearestEven (-x / 2 ^ ulpExponent (-x)) * 2 ^ ulpExponent (-x))

/-- The finite binary64 numbers: a significand below 2^53 times a power of
two with exponent from -1074 to 971, of either sign. -/
def IsBinary64 (x : ℚ) : Prop :=
  ∃ (m : ℕ) (e : ℤ), m < 2 ^ 53 ∧ -1074 ≤ e ∧ e ≤ 971 ∧ (x = m * 2 ^ e ∨ x = -(m * 2 ^ e))

/-- `Math.floor(1000 + Math.random() * 9000)` for the drawn value `r`, in
binary64 arithmetic: the product is rounded, then the sum is rounded, then
the floor is taken. -/
def verificationCodeOf (r : ℚ) : Int :=
  ⌊roundBinary64 (1000 + roundBinary64 (r * 9000))⌋

/-- The row that `prisma.visitor.create` inserts in request intake. -/
def newVisitorRow (s : Store) (body : RequestBody) (r : ℚ) (token : String) (now : Nat) : Visitor :=
  { id := s.nextVisitorId
    visitorName := body.visitorName
    visitorEmail := body.visitorEmail
    residentName := body.residentName
    residentEmail := body.residentEmail
    visitReason := body.visitReason
    carNumber := body.carNumber
    status := "pending"
    verificationCode := toString (verificationCodeOf r)
    approvalToken := token
    inDate := none
    inTime := none
    outDate := none
    outTime := none
    createdAt := now }

/-- Appends a resident row and advances the id sequence. -/
def insertResident (s : Store) (name email : String) : Store :=
  { s with
    residents := s.residents ++ [{ id := s.nextResidentId, name := name, email := email }]
    nextResidentId := s.nextResidentId + 1 }

/-- The lookup-or-create step of request intake: the store once a resident
for the email is known, or the response that ends the request. After a
unique-constraint error the row of the other request is in the table, so it
is part of the store from here on. -/
def ensureResident (rc : ResidentCreate) (s : Store) (body : RequestBody) : Except Response Store :=
  match findResident s body.residentEmail with
  | some _ => .ok s
  | none =>
    match rc with
    | .created =>
      .ok (insertResident s (if body.residentName = "" then "Resident" else body.residentName)
        body.residentEmail)
    | .uniqueViolation (some name) => .ok (insertResident s name body.residentEmail)
    | .uniqueViolation none => .error (.json 500 (.error "Failed to create or find resident"))
    | .failure => .error (.json 500 (.thrown .residentCreateFailed true))

/-- Handler of `POST /api/visitor-request`. -/
def visitorRequest (env : MailEnv) (rc : ResidentCreate) (r : ℚ) (token : String) (now : Nat)
    (s : Store) (body : RequestBody) : Outcome :=
  match ensureResident rc s body with
  | .error resp => { store := s, response := resp, sent := [] }
  | .ok s1 =>
    let newVisitor := newVisitorRow s1 body r token now
    { store := { s1 with visitors := s1.visitors ++ [newVisitor]
                         nextVisitorId := s1.nextVisitorId + 1 }
      response := .json 200 (.record (plain newVisitor))
      sent := sendMail env
        { recipient := newVisitor.residentEmail, subject := "New Visitor Request - iVisitor" } }

/-- Handler of `PUT /api/visitor-status/:id`. -/
def visitorStatus (env : MailEnv) (s : Store) (id : Nat) (status : String) : Outcome :=
  match updateRow s id (fun v => { v with status := status }) with
  | .error e => { store := s, response := .json 500 (.thrown e false), sent := [] }
  | .ok (s1, updatedVisitor) =>
    { store := s1
      response := .json 200 (.record (plain updatedVisitor))
      sent :=
        if status = "approved" then
          sendMail env
            { recipient := updatedVisitor.visitorEmail
              subject := "Visit Approved - Verification Code" }
        else [] }

/-- Handler of `POST /api/guard-verify`; `db` is the database clock and
`now` the clock of the server process. -/
def guardVerify (db : DbClock) (now : TimeOfDay) (s : Store) (visitorId : Nat) (code : String) :
    Outcome :=
  match s.visitors.find? (fun v => v.id == visitorId && v.verificationCode == code) with
  | none => { store := s, response := .json 400 (.error "Invalid verification code"), sent := [] }
  | some _ =>
    let s1 := mapRow s visitorId (fun v => { v with inDate := some db.date, inTime := some db.time })
    match findVisitor s1 visitorId with
    | none => { store := s1, response := .json 500 (.thrown .nullRecord false), sent := [] }
    | some updatedVisitor =>
      { store := s1
        response := .json 200
          (.record { plain updatedVisitor with formattedTime := some (formatTime now) })
        sent := [] }

/-- Handler of `PUT /api/visitor-exit/:id`. -/
def visitorExit (db : DbClock) (now : TimeOfDay) (s : Store) (id : Nat) : Outcome :=
  let s1 := mapRow s id (fun v => { v with outDate := some db.date, outTime := some db.time })
  match findVisitor s1 id with
  | none => { store := s1, response := .json 500 (.thrown .nullRecord false), sent := [] }
  | some updatedVisitor =>
    { store := s1
      response := .json 200
        (.record { plain updatedVisitor with formattedOutTime := some (formatTime now) })
      sent := [] }

/-- The `map` callback of the listing: copies the record and attaches
`formattedTime` when `inTime` is set and `formattedOutTime` when `outTime`
is set. -/
def withFormattedTime (s : Store) (v : Visitor) : VisitorView :=
  { visitor := v
    resident := residentOf s v
    formattedTime := v.inTime.map formatTime
    formattedOutTime := v.outTime.map formatTime }

/-- `orderBy: createdAt desc`. -/
def newestFirst (vs : List Visitor) : List Visitor :=
  vs.insertionSort (fun a b => a.createdAt ≥ b.createdAt)

/-- Handler of `GET /api/visitors`. -/
def listVisitors (s : Store) : Outcome :=
  { store := s
    response := .json 200 (.records ((newestFirst s.visitors).map (withFormattedTime s)))
    sent := [] }

/-- `successPage(message, details)`. -/
def successPage (message details : String) : Page := .success message details

/-- `errorPage(message)`. -/
def errorPage (message : String) : Page := .error message

/-- The `findFirst` of the link routes: id, approval token and pending
status must all match. -/
def findPending (s : Store) (id : Nat) (token : String) : Option Visitor :=
  s.visitors.find? (fun v => v.id == id && v.approvalToken == token && v.status == "pending")

/-- Handler of `GET /api/approve/:id/:token`. -/
def approveLink (env : MailEnv) (s : Store) (id : Nat) (token : String) : Outcome :=
  match findPending s id token with
  | none =>
    { store := s, response := .html (errorPage "Invalid or expired approval link."), sent := [] }
  | some visitor =>
    match updateRow s id (fun v => { v with status := "approved" }) with
    | .error _ =>
      { store := s, response := .html (errorPage "Failed to approve visitor."), sent := [] }
    | .ok (s1, _) =>
      { store := s1
        response := .html (successPage "Visitor approved successfully!"
          ("Verification code sent to " ++ visitor.visitorEmail))
        sent := sendMail env
          { recipient := visitor.visitorEmail, subject := "Visit Approved - Verification Code" } }

/-- Handler of `GET /api/reject/:id/:token`. -/
def rejectLink (env : MailEnv) (s : Store) (id : Nat) (token : String) : Outcome :=
  match findPending s id token with
  | none =>
    { store := s, response := .html (errorPage "Invalid or expired rejection link."), sent := [] }
  | some visitor =>
    match updateRow s id (fun v => { v with status := "rejected" }) with
    | .error _ =>
      { store := s, response := .html (errorPage "Failed to reject visitor."), sent := [] }
    | .ok (s1, _) =>
      { store := s1
        response := .html (successPage "Visitor rejected."
          (visitor.visitorName ++ " has been notified."))
        sent := sendMail env
          { recipient := visitor.visitorEmail, subject := "Visit Request Update" } }

/-! ## The server as a transition system -/

/-- One request to the server, with everything the handler reads from
outside the store. -/
inductive Op where
  | getVisitor (id : Nat)
  | visitorRequest (env : MailEnv) (rc : ResidentCreate) (r : ℚ) (token : String) (now : Nat)
      (body : RequestBody)
  | visitorStatus (env : MailEnv) (id : Nat) (status : String)
  | guardVerify (db : DbClock) (now : TimeOfDay) (visitorId : Nat) (code : String)
  | visitorExit (db : DbClock) (now : TimeOfDay) (id : Nat)
  | listVisitors
  | approveLink (env : MailEnv) (id : Nat) (token : String)
  | rejectLink (env : MailEnv) (id : Nat) (token : String)

/-- Runs the handler of a request. -/
def handle (s : Store) : Op → Outcome
  | .getVisitor id => getVisitor s id
  | .visitorRequest env rc r token now body => visitorRequest env rc r token now s body
  | .visitorStatus env id status => visitorStatus env s id status
  | .guardVerify db now visitorId code => guardVerify db now s visitorId code
  | .visitorExit db now id => visitorExit db now s id
  | .listVisitors => listVisitors s
  | .approveLink env id token => approveLink env s id token
  | .rejectLink env id token => rejectLink env s id token

/-- The store after a request. -/
def step (s : Store) (op : Op) : Store := (handle s op).store

/-- The store after a sequence of requests. -/
def run (s : Store) (ops : List Op) : Store := ops.foldl step s

/-- States the server reaches from the empty database. -/
def Reachable (s : Store) : Prop := ∃ ops, run Store.empty ops = s

/-- Modelled from the spec: the status column of the visitors table is
declared in the database schema, which is not among the sources; the spec
gives the status of a visitor as pending, approved or rejected, so the column
takes these three values and the database refuses the write of any other. -/
def statusColumn (status : String) : Bool :=
  status == "pending" || status == "approved" || status == "rejected"

/-- Modelled from the spec: the handlers over the status column of the
spec. A status update whose target the column refuses makes
`prisma.visitor.update` throw, so the handler answers 500 and writes nothing;
every other request runs as in `handle`. -/
def handleTyped (s : Store) : Op → Outcome
  | .visitorStatus env id status =>
    if statusColumn status then visitorStatus env s id status
    else { store := s, response := .json 500 (.thrown .invalidValue false), sent := [] }
  | .getVisitor id => handle s (.getVisitor id)
  | .visitorRequest env rc r token now body => handle s (.visitorRequest env rc r token now body)
  | .guardVerify db now visitorId code => handle s (.guardVerify db now visitorId code)
  | .visitorExit db now id => handle s (.visitorExit db now id)
  | .listVisitors => handle s .listVisitors
  | .approveLink env id token => handle s (.approveLink env id token)
  | .rejectLink env id token => handle s (.rejectLink env id token)

/-- The store after a request, over the status column of the spec. -/
def stepTyped (s : Store) (op : Op) : Store := (handleTyped s op).store

/-- The store after a sequence of requests, over the status column of the
spec. -/
def runTyped (s : Store) (ops : List Op) : Store := ops.foldl stepTyped s

/-- States the server reaches from the empty database, over the status
column of the spec. -/
def ReachableTyped (s : Store) : Prop := ∃ ops, runTyped Store.empty ops = s

/-! ## Store invariants -/

/-- The primary key of the visitors table: ids are pairwise distinct and
below the next value of the id sequence. -/
def Store.WF (s : Store) : Prop :=
  (s.visitors.map Visitor.id).Nodup ∧ ∀ v ∈ s.visitors, v.id < s.nextVisitorId

/-- The store with the row `v` replaced by `v2` and nothing else changed. -/
def Store.replaceRow (s : Store) (v v2 : Visitor) : Store :=
  { s with visitors := s.visitors.map (fun w => if w = v then v2 else w) }

/-- The visitor with the given id is stored and its status is not
"pending". -/
def Decided (s : Store) (id : Nat) : Prop :=
  ∃ v ∈ s.visitors, v.id = id ∧ v.status ≠ "pending"

/-- The three status values of the data model. -/
def ValidStatus (status : String) : Prop :=
  status = "pending" ∨ status = "approved" ∨ status = "rejected"

/-- A status-update request asks for one of the three status values; any
other request passes. -/
def Op.targetValid : Op → Prop
  | .visitorStatus _ _ status => ValidStatus status
  | _ => True

/-- A request to `PUT /api/visitor-status/:id`. -/
def Op.isStatusUpdate : Op → Prop
  | .visitorStatus _ _ _ => True
  | _ => False

/-- A call of the approve link or of the reject link with the given id and
token. -/
def Op.isLinkCall (id : Nat) (token : String) : Op → Prop
  | .approveLink _ id2 token2 => id2 = id ∧ token2 = token
  | .rejectLink _ id2 token2 => id2 = id ∧ token2 = token
  | _ => False

/-! ## Sample data -/

/-- A visitors row with the given id and status, used in the instances
below. -/
def sampleVisitor (id : Nat) (status : String) : Visitor :=
  { id := id
    visitorName := "Asha"
    visitorEmail := "asha@example.org"
    residentName := "Noor"
    residentEmail := "noor@example.org"
    visitReason := "delivery"
    carNumber := none
    status := status
    verificationCode := "4821"
    approvalToken := "c0ffee"
    inDate := none
    inTime := none
    outDate := none
    outTime := none
    createdAt := 10 * id }

/-- A store with one pending, one approved and one rejected visitor. -/
def sampleStore : Store :=
  { visitors := [sampleVisitor 1 "pending", sampleVisitor 2 "approved", sampleVisitor 3 "rejected"]
    residents := [{ id := 1, name := "Noor", email := "noor@example.org" }]
    nextVisitorId := 4
    nextResidentId := 2 }

/-- Body of a first visitor request. -/
def sampleBody : RequestBody :=
  { visitorName := "Asha"
    visitorEmail := "asha@example.org"
    residentName := "Noor"
    residentEmail := "noor@example.org"
    visitReason := "delivery"
    carNumber := none }

/-- A visitor request followed by the approve link of the created visitor. -/
def decidedOps : List Op :=
  [.visitorRequest ⟨true, true⟩ .created (1 / 2) "c0ffee" 0 sampleBody,
   .approveLink ⟨true, true⟩ 1 "c0ffee"]

/-- A visitor request followed by a status update whose target is none of
the three status values. -/
def strayOps : List Op :=
  [.visitorRequest ⟨true, true⟩ .created (1 / 2) "c0ffee" 0 sampleBody,
   .visitorStatus ⟨true, true⟩ 1 "archived"]

/-- A visitor request, the approve link of the created visitor and a status
update of that visitor to "pending". -/
def reopenedOps : List Op :=
  [.visitorRequest ⟨true, true⟩ .created (1 / 2) "c0ffee" 0 sampleBody,
   .approveLink ⟨true, true⟩ 1 "c0ffee",
   .visitorStatus ⟨true, true⟩ 1 "pending"]

/-- A visitor request, the reject link and a status update to "approved". -/
def validOps : List Op :=
  [.visitorRequest ⟨true, true⟩ .created (1 / 2) "c0ffee" 0 sampleBody,
   .rejectLink ⟨true, true⟩ 1 "c0ffee",
   .visitorStatus ⟨true, true⟩ 1 "approved"]

/-- The unique constraint of the residents table: emails are pairwise
distinct. -/
def ResidentsUnique (s : Store) : Prop :=
  (s.residents.map Resident.email).Nodup

/-! ## Decimal strings and the 12-hour format -/

theorem toDigitsCore_four (f k : Nat) (h1 : 1000 ≤ k) (h2 : k < 10000) :
    Nat.toDigitsCore 10 (f + 4) k [] = [Nat.digitChar (k / 1000), Nat.digitChar (k / 100 % 10),
      Nat.digitChar (k / 10 % 10), Nat.digitChar (k % 10)] := by
  have e1 : k / 10 ≠ 0 := by omega
  have e2 : k / 10 / 10 ≠ 0 := by omega
  have e3 : k / 10 / 10 / 10 ≠ 0 := by omega
  have e4 : k / 10 / 10 / 10 / 10 = 0 := by omega
  have a1 : k / 10 / 10 / 10 % 10 = k / 1000 := by omega
  have a2 : k / 10 / 10 % 10 = k / 100 % 10 := by omega
  simp only [Nat.toDigitsCore, e1, e2, e3, e4, if_true, if_false, a1, a2]

theorem toDigits_four (k : Nat) (h1 : 1000 ≤ k) (h2 : k < 10000) :
    Nat.toDigits 10 k = [Nat.digitChar (k / 1000), Nat.digitChar (k / 100 % 10),
      Nat.digitChar (k / 10 % 10), Nat.digitChar (k % 10)] := by
  have h := toDigitsCore_four (k - 3) k h1 h2
  rw [show k - 3 + 4 = k + 1 by omega] at h
  exact h

theorem digitChar_isDigit (d : Nat) (h : d < 10) : (Nat.digitChar d).isDigit = true := by
  interval_cases d <;> rfl

/-- The decimal string of an integer from 1000 to 9999 has four characters,
all of them digits. -/
theorem int_toString_four (n : Int) (h1 : 1000 ≤ n) (h2 : n < 10000) :
    (toString n).length = 4 ∧ ∀ c ∈ (toString n).data, c.isDigit = true := by
  obtain ⟨k, rfl⟩ := Int.eq_ofNat_of_zero_le (by omega : 0 ≤ n)
  have hk1 : 1000 ≤ k := by omega
  have hk2 : k < 10000 := by omega
  have e : toString (k : Int) = String.mk (Nat.toDigits 10 k) := rfl
  rw [e, toDigits_four k hk1 hk2]
  refine ⟨rfl, ?_⟩
  intro c hc
  simp only [List.mem_cons, List.mem_singleton, List.not_mem_nil, or_false] at hc
  rcases hc with rfl | rfl | rfl | rfl <;> apply digitChar_isDigit <;> omega

theorem roundNearestEven_le (q : ℚ) (N : ℤ) (h : q < N + 1 / 2) : roundNearestEven q ≤ N := by
  have h1 : (⌊q⌋ : ℚ) ≤ q := Int.floor_le q
  have h2 : ⌊q⌋ < N + 1 := by
    rw [Int.floor_lt]; push_cast; linarith
  unfold roundNearestEven
  split_ifs with c1 c2 c3
  · omega
  · by_contra hc
    have : ⌊q⌋ = N := by omega
    rw [this] at c1
    exact c1 (by linarith)
  · omega
  · by_contra hc
    have : ⌊q⌋ = N := by omega
    rw [this] at c1
    exact c1 (by linarith)

theorem le_roundNearestEven (q : ℚ) (N : ℤ) (h : (N : ℚ) ≤ q) : N ≤ roundNearestEven q := by
  have h1 : N ≤ ⌊q⌋ := Int.le_floor.mpr h
  unfold roundNearestEven
  split_ifs <;> omega

theorem ulpExponent_le (x : ℚ) (hx : 0 < x) (k : ℤ) (hk : -1074 ≤ k)
    (h : x < 2 ^ (k + 53)) : ulpExponent x ≤ k := by
  have h2 : x < ((2 : ℕ) : ℚ) ^ (k + 53) := by exact_mod_cast h
  have := (Int.lt_zpow_iff_log_lt (by norm_num : 1 < 2) hx).mp h2
  unfold ulpExponent
  exact max_le (by omega) hk

theorem le_ulpExponent (x : ℚ) (hx : 0 < x) (k : ℤ)
    (h : (2 : ℚ) ^ (k + 52) ≤ x) : k ≤ ulpExponent x := by
  have h2 : ((2 : ℕ) : ℚ) ^ (k + 52) ≤ x := by exact_mod_cast h
  have := (Int.zpow_le_iff_le_log (by norm_num : 1 < 2) hx).mp h2
  unfold ulpExponent
  exact le_max_of_le_left (by omega)

theorem two_zpow_pos (e : ℤ) : (0 : ℚ) < 2 ^ e := zpow_pos (by norm_num) e

/-- A multiple of `2 ^ k` is an integer multiple of `2 ^ e` when `e ≤ k`. -/
theorem grid_coarser (n k e : ℤ) (h : e ≤ k) :
    ∃ M : ℤ, (n : ℚ) * 2 ^ k = M * 2 ^ e := by
  refine ⟨n * 2 ^ (k - e).toNat, ?_⟩
  have hk : k = e + ((k - e).toNat : ℤ) := by
    rw [Int.toNat_of_nonneg (by omega)]; ring
  push_cast
  conv_lhs => rw [hk]
  rw [zpow_add₀ (by norm_num : (2 : ℚ) ≠ 0), zpow_natCast]
  ring

theorem roundBinary64_pos (x : ℚ) (hx : 0 < x) :
    roundBinary64 x = roundNearestEven (x / 2 ^ ulpExponent x) * 2 ^ ulpExponent x := by
  unfold roundBinary64
  rw [if_neg (ne_of_gt hx), if_pos hx]

theorem roundBinary64_le_grid (x : ℚ) (hx : 0 < x) (n k : ℤ) (hk : ulpExponent x ≤ k)
    (h : x ≤ n * 2 ^ k) : roundBinary64 x ≤ n * 2 ^ k := by
  obtain ⟨M, hM⟩ := grid_coarser n k (ulpExponent x) hk
  rw [roundBinary64_pos x hx, hM]
  have hp := two_zpow_pos (ulpExponent x)
  have hq : x / 2 ^ ulpExponent x ≤ M := by
    rw [div_le_iff₀ hp, ← hM]; exact h
  have := roundNearestEven_le (x / 2 ^ ulpExponent x) M (by linarith)
  have hc : ((roundNearestEven (x / 2 ^ ulpExponent x) : ℤ) : ℚ) ≤ (M : ℚ) := by exact_mod_cast this
  exact mul_le_mul_of_nonneg_right hc hp.le

theorem grid_le_roundBinary64 (x : ℚ) (hx : 0 < x) (n k : ℤ) (hk : ulpExponent x ≤ k)
    (h : (n : ℚ) * 2 ^ k ≤ x) : (n : ℚ) * 2 ^ k ≤ roundBinary64 x := by
  obtain ⟨M, hM⟩ := grid_coarser n k (ulpExponent x) hk
  rw [roundBinary64_pos x hx, hM]
  have hp := two_zpow_pos (ulpExponent x)
  have hq : (M : ℚ) ≤ x / 2 ^ ulpExponent x := by
    rw [le_div_iff₀ hp, ← hM]; exact h
  have := le_roundNearestEven (x / 2 ^ ulpExponent x) M hq
  have hc : (M : ℚ) ≤ ((roundNearestEven (x / 2 ^ ulpExponent x) : ℤ) : ℚ) := by exact_mod_cast this
  exact mul_le_mul_of_nonneg_right hc hp.le

theorem roundBinary64_le_half (x : ℚ) (hx : 0 < x) (n k : ℤ) (hk : ulpExponent x = k)
    (h : x < (n + 1 / 2) * 2 ^ k) : roundBinary64 x ≤ n * 2 ^ k := by
  rw [roundBinary64_pos x hx, hk]
  have hp := two_zpow_pos k
  have hq : x / 2 ^ k < n + 1 / 2 := by
    rw [div_lt_iff₀ hp]; exact h
  have := roundNearestEven_le (x / 2 ^ k) n hq
  have hc : ((roundNearestEven (x / 2 ^ k) : ℤ) : ℚ) ≤ (n : ℚ) := by exact_mod_cast this
  exact mul_le_mul_of_nonneg_right hc hp.le

theorem roundBinary64_nonneg (x : ℚ) (hx : 0 ≤ x) : 0 ≤ roundBinary64 x := by
  rcases eq_or_lt_of_le hx with h | h
  · rw [← h]; simp [roundBinary64]
  · rw [roundBinary64_pos x h]
    have hp := two_zpow_pos (ulpExponent x)
    have := le_roundNearestEven (x / 2 ^ ulpExponent x) 0 (by
      push_cast; exact div_nonneg hx hp.le)
    have hc : (0 : ℚ) ≤ ((roundNearestEven (x / 2 ^ ulpExponent x) : ℤ) : ℚ) := by exact_mod_cast this
    exact mul_nonneg hc hp.le

theorem unit_binary64_le (r : ℚ) (hd : IsBinary64 r) (h0 : 0 ≤ r) (h1 : r < 1) :
    r ≤ 1 - 1 / 2 ^ 53 := by
  obtain ⟨m, e, hm, _, _, hr | hr⟩ := hd
  · by_cases he : -53 ≤ e
    · obtain ⟨M, hM⟩ := grid_coarser m e (-53) he
      have hr2 : r = M * 2 ^ (-53 : ℤ) := by rw [hr, ← hM]; push_cast; rfl
      have hz : (2 : ℚ) ^ (-53 : ℤ) = 1 / 2 ^ 53 := by norm_num
      rw [hz] at hr2
      have hlt : (M : ℚ) < 2 ^ 53 := by
        have : (M : ℚ) = r * 2 ^ 53 := by rw [hr2]; field_simp
        rw [this]
        have : r * 2 ^ 53 < 1 * 2 ^ 53 := by
          apply mul_lt_mul_of_pos_right h1; positivity
        linarith
      have hlt2 : M < 2 ^ 53 := by exact_mod_cast hlt
      have hle : M ≤ 2 ^ 53 - 1 := by omega
      have hle2 : (M : ℚ) ≤ 2 ^ 53 - 1 := by exact_mod_cast hle
      rw [hr2]
      have : (M : ℚ) * (1 / 2 ^ 53) ≤ (2 ^ 53 - 1) * (1 / 2 ^ 53) :=
        mul_le_mul_of_nonneg_right hle2 (by positivity)
      calc (M : ℚ) * (1 / 2 ^ 53) ≤ (2 ^ 53 - 1) * (1 / 2 ^ 53) := this
        _ = 1 - 1 / 2 ^ 53 := by norm_num
    · have he2 : e ≤ -54 := by omega
      have hz : (2 : ℚ) ^ e ≤ 2 ^ (-54 : ℤ) := zpow_le_zpow_right₀ (by norm_num) he2
      have hm2 : (m : ℚ) ≤ 2 ^ 53 := by exact_mod_cast hm.le
      have : (m : ℚ) * 2 ^ e ≤ 2 ^ 53 * 2 ^ (-54 : ℤ) :=
        mul_le_mul hm2 hz (two_zpow_pos e).le (by positivity)
      rw [hr]
      calc (m : ℚ) * 2 ^ e ≤ 2 ^ 53 * 2 ^ (-54 : ℤ) := this
        _ ≤ 1 - 1 / 2 ^ 53 := by norm_num
  · have : 0 ≤ (m : ℚ) * 2 ^ e := mul_nonneg (by positivity) (two_zpow_pos e).le
    have : r = 0 := by linarith
    rw [this]; norm_num

theorem product_range (r : ℚ) (hd : IsBinary64 r) (h0 : 0 ≤ r) (h1 : r < 1) :
    0 ≤ roundBinary64 (r * 9000) ∧ roundBinary64 (r * 9000) ≤ 9000 - 1 / 2 ^ 39 := by
  have hr := unit_binary64_le r hd h0 h1
  have hx0 : 0 ≤ r * 9000 := by positivity
  refine ⟨roundBinary64_nonneg _ hx0, ?_⟩
  rcases eq_or_lt_of_le hx0 with h | h
  · rw [← h]; simp [roundBinary64]; norm_num
  · have hgrid : ((9000 * 2 ^ 39 - 1 : ℤ) : ℚ) * 2 ^ (-39 : ℤ) = 9000 - 1 / 2 ^ 39 := by
      norm_num
    rw [← hgrid]
    have hup : r * 9000 < 2 ^ ((-39 : ℤ) + 53) := by norm_num; linarith
    have hk := ulpExponent_le (r * 9000) h (-39) (by norm_num) hup
    by_cases hc : r * 9000 ≤ ((9000 * 2 ^ 39 - 1 : ℤ) : ℚ) * 2 ^ (-39 : ℤ)
    · exact roundBinary64_le_grid (r * 9000) h _ (-39) hk hc
    · have hlow : (2 : ℚ) ^ ((-39 : ℤ) + 52) ≤ r * 9000 := by
        rw [hgrid] at hc
        norm_num at hc ⊢
        linarith
      have hk2 := le_ulpExponent (r * 9000) h (-39) hlow
      apply roundBinary64_le_half (r * 9000) h _ (-39) (le_antisymm hk hk2)
      norm_num
      linarith

theorem verificationCodeOf_range (r : ℚ) (hd : IsBinary64 r) (h0 : 0 ≤ r) (h1 : r < 1) :
    1000 ≤ verificationCodeOf r ∧ verificationCodeOf r < 10000 := by
  obtain ⟨hp0, hp1⟩ := product_range r hd h0 h1
  have hy : 0 < 1000 + roundBinary64 (r * 9000) := by linarith
  have hlo : ((1000 : ℤ) : ℚ) * 2 ^ (0 : ℤ) ≤ roundBinary64 (1000 + roundBinary64 (r * 9000)) := by
    apply grid_le_roundBinary64 _ hy
    · apply ulpExponent_le _ hy 0 (by norm_num)
      norm_num; linarith
    · norm_num; linarith
  have hhi : roundBinary64 (1000 + roundBinary64 (r * 9000)) ≤
      ((10000 * 2 ^ 39 - 1 : ℤ) : ℚ) * 2 ^ (-39 : ℤ) := by
    apply roundBinary64_le_grid _ hy
    · apply ulpExponent_le _ hy (-39) (by norm_num)
      norm_num; linarith
    · norm_num; linarith
  unfold verificationCodeOf
  constructor
  · apply Int.le_floor.mpr
    norm_num at hlo ⊢
    exact hlo
  · apply Int.floor_lt.mpr
    norm_num at hhi ⊢
    linarith

theorem roundNearestEven_ge (q : ℚ) (N : ℤ) (h : (N : ℚ) - 1 / 2 < q) : N ≤ roundNearestEven q := by
  have h1 : q < ⌊q⌋ + 1 := Int.lt_floor_add_one q
  have h2 : N - 1 ≤ ⌊q⌋ := by
    rw [Int.le_floor]; push_cast; linarith
  unfold roundNearestEven
  split_ifs with c1 c2 c3
  · by_contra hc
    have : ⌊q⌋ = N - 1 := by omega
    rw [this] at c1
    push_cast at c1
    linarith
  · omega
  · by_contra hc
    have : ⌊q⌋ = N - 1 := by omega
    rw [this] at c1 c2
    push_cast at c1 c2
    exact c2 (by linarith)
  · omega

theorem roundBinary64_eq (x : ℚ) (hx : 0 < x) (n k : ℤ) (hk1 : -1074 ≤ k)
    (hlo : (2 : ℚ) ^ (k + 52) ≤ x) (hhi : x < 2 ^ (k + 53))
    (h1 : ((n : ℚ) - 1 / 2) * 2 ^ k < x) (h2 : x < (n + 1 / 2) * 2 ^ k) :
    roundBinary64 x = n * 2 ^ k := by
  have hk : ulpExponent x = k :=
    le_antisymm (ulpExponent_le x hx k hk1 hhi) (le_ulpExponent x hx k hlo)
  rw [roundBinary64_pos x hx, hk]
  have hp := two_zpow_pos k
  have e : roundNearestEven (x / 2 ^ k) = n := by
    apply le_antisymm
    · apply roundNearestEven_le
      rw [div_lt_iff₀ hp]; exact h2
    · apply roundNearestEven_ge
      rw [lt_div_iff₀ hp]; exact h1
  rw [e]

/-- Rounding matters: at r = 6254999482459 / 2^51 the binary64 sum is 1025,
so the code is "1025", although the exact value of 1000 + 9000 r lies below
1025. -/
theorem verificationCodeOf_rounds_up :
    verificationCodeOf (6254999482459 / 2 ^ 51) = 1025 ∧
    ⌊(1000 : ℚ) + 6254999482459 / 2 ^ 51 * 9000⌋ = 1024 := by
  have e1 : roundBinary64 (6254999482459 / 2 ^ 51 * 9000) =
      ((7036874417766375 : ℤ) : ℚ) * 2 ^ (-48 : ℤ) := by
    apply roundBinary64_eq _ (by norm_num) _ _ (by norm_num) <;> norm_num
  have e2 : roundBinary64 (1000 + ((7036874417766375 : ℤ) : ℚ) * 2 ^ (-48 : ℤ)) =
      ((1025 * 2 ^ 42 : ℤ) : ℚ) * 2 ^ (-42 : ℤ) := by
    apply roundBinary64_eq _ (by norm_num) _ _ (by norm_num) <;> norm_num
  constructor
  · unfold verificationCodeOf
    rw [e1, e2]
    norm_num
  · rw [Int.floor_eq_iff]
    norm_num

theorem padStart_minutes (m : Nat) (hm : m < 60) :
    padStart (toString m) 2 '0' = String.mk [Nat.digitChar (m / 10), Nat.digitChar (m % 10)] := by
  interval_cases m <;> rfl

/-- C7: for an hour h in 0..23 and a minute m in 0..59 the 12-hour string
is H, a colon, m in two digits and " AM" or " PM", where H lies in 1..12 and
is congruent to h modulo 12, and the mark is PM exactly when h is at least
12; 13:05 gives "1:05 PM", 0:00 gives "12:00 AM" and 12:00 gives
"12:00 PM". -/
theorem formatTime_twelve_hour (h m : Nat) (_hh : h < 24) (hm : m < 60) :
    (∃ H, 1 ≤ H ∧ H ≤ 12 ∧ H % 12 = h % 12 ∧
      formatTime { hours := h, minutes := m } =
        toString H ++ ":" ++ String.mk [Nat.digitChar (m / 10), Nat.digitChar (m % 10)]
          ++ (if 12 ≤ h then " PM" else " AM")) ∧
    formatTime { hours := 13, minutes := 5 } = "1:05 PM" ∧
    formatTime { hours := 0, minutes := 0 } = "12:00 AM" ∧
    formatTime { hours := 12, minutes := 0 } = "12:00 PM" := by
  refine ⟨⟨hours12 h, ?_, ?_, ?_, ?_⟩, rfl, rfl, rfl⟩
  · unfold hours12; split <;> omega
  · unfold hours12; split <;> omega
  · unfold hours12; split <;> omega
  · unfold formatTime
    simp only [padStart_minutes m hm]
    have e : (" " : String) ++ ampm h = (if 12 ≤ h then " PM" else " AM") := by
      unfold ampm; split <;> rfl
    rw [← e]
    simp [String.append_assoc]

/-- Instance of C7 at 23:59. -/
theorem formatTime_twelve_hour_witness :
    (23 < 24 ∧ 59 < 60) ∧
    ((∃ H, 1 ≤ H ∧ H ≤ 12 ∧ H % 12 = 23 % 12 ∧
      formatTime { hours := 23, minutes := 59 } =
        toString H ++ ":" ++ String.mk [Nat.digitChar (59 / 10), Nat.digitChar (59 % 10)]
          ++ (if 12 ≤ 23 then " PM" else " AM")) ∧
    formatTime { hours := 13, minutes := 5 } = "1:05 PM" ∧
    formatTime { hours := 0, minutes := 0 } = "12:00 AM" ∧
    formatTime { hours := 12, minutes := 0 } = "12:00 PM") :=
  ⟨⟨by decide, by decide⟩, formatTime_twelve_hour 23 59 (by decide) (by decide)⟩

/-! ## Request intake -/

theorem ensureResident_ok (rc : ResidentCreate) (s s1 : Store) (body : RequestBody)
    (h : ensureResident rc s body = .ok s1) :
    s1.visitors = s.visitors ∧ s1.nextVisitorId = s.nextVisitorId := by
  unfold ensureResident at h
  split at h
  · cases h; exact ⟨rfl, rfl⟩
  · split at h <;> first | (cases h; exact ⟨rfl, rfl⟩) | cases h

theorem ensureResident_error (rc : ResidentCreate) (s : Store) (body : RequestBody)
    (resp : Response) (h : ensureResident rc s body = .error resp) :
    ∃ b, resp = .json 500 b := by
  unfold ensureResident at h
  split at h
  · cases h
  · split at h <;> first | (cases h; exact ⟨_, rfl⟩) | cases h

/-- C4: when request intake succeeds, for a value r in [0,1) drawn by
the random generator (a binary64 number), the visitors table grows by exactly
one row, the row returned; its status is "pending" and its verificationCode,
the decimal string of floor(1000 + 9000 r) as binary64 arithmetic computes
it, lies from 1000 to 9999 and has exactly four characters, all decimal
digits. -/
theorem visitorRequest_persists_pending (env : MailEnv) (rc : ResidentCreate) (r : ℚ)
    (token : String) (now : Nat) (s : Store) (body : RequestBody)
    (hd : IsBinary64 r) (hr0 : 0 ≤ r) (hr1 : r < 1)
    (hok : ∃ b, (visitorRequest env rc r token now s body).response = .json 200 b) :
    ∃ v : Visitor,
      (visitorRequest env rc r token now s body).store.visitors = s.visitors ++ [v] ∧
      (visitorRequest env rc r token now s body).response = .json 200 (.record (plain v)) ∧
      v.status = "pending" ∧
      v.verificationCode = toString (verificationCodeOf r) ∧
      1000 ≤ verificationCodeOf r ∧ verificationCodeOf r ≤ 9999 ∧
      v.verificationCode.length = 4 ∧
      ∀ c ∈ v.verificationCode.data, c.isDigit = true := by
  obtain ⟨b, hb⟩ := hok
  unfold visitorRequest at hb ⊢
  cases he : ensureResident rc s body with
  | error resp =>
    rw [he] at hb
    obtain ⟨b2, rfl⟩ := ensureResident_error rc s body resp he
    simp at hb
  | ok s1 =>
    obtain ⟨hv, _⟩ := ensureResident_ok rc s s1 body he
    have hr := verificationCodeOf_range r hd hr0 hr1
    have hd := int_toString_four (verificationCodeOf r) hr.1 hr.2
    refine ⟨newVisitorRow s1 body r token now, ?_, rfl, rfl, rfl, hr.1, by omega, hd.1, hd.2⟩
    simp [hv]

/-- Instance of C4: the first request, with the drawn value 1/2. -/
theorem visitorRequest_persists_pending_witness :
    (IsBinary64 (1 / 2) ∧ (0 : ℚ) ≤ 1 / 2 ∧ (1 / 2 : ℚ) < 1) ∧
    ∃ v : Visitor,
      (visitorRequest ⟨true, true⟩ .created (1 / 2) "t" 0 Store.empty
        ⟨"v", "v@x", "r", "r@x", "visit", none⟩).store.visitors = Store.empty.visitors ++ [v] ∧
      (visitorRequest ⟨true, true⟩ .created (1 / 2) "t" 0 Store.empty
        ⟨"v", "v@x", "r", "r@x", "visit", none⟩).response = .json 200 (.record (plain v)) ∧
      v.status = "pending" ∧
      v.verificationCode = toString (verificationCodeOf (1 / 2)) ∧
      1000 ≤ verificationCodeOf (1 / 2) ∧ verificationCodeOf (1 / 2) ≤ 9999 ∧
      v.verificationCode.length = 4 ∧
      ∀ c ∈ v.verificationCode.data, c.isDigit = true :=
  ⟨⟨⟨1, -1, by norm_num, by norm_num, by norm_num, Or.inl (by norm_num)⟩, by norm_num,
      by norm_num⟩,
    visitorRequest_persists_pending ⟨true, true⟩ .created (1 / 2) "t" 0 Store.empty
      ⟨"v", "v@x", "r", "r@x", "visit", none⟩
      ⟨1, -1, by norm_num, by norm_num, by norm_num, Or.inl (by norm_num)⟩
      (by norm_num) (by norm_num) ⟨_, rfl⟩⟩

/-! ## Rows and their keys -/

theorem find_unique {α : Type} (p : α → Bool) (l : List α) (v : α) (hv : v ∈ l)
    (hp : p v = true) (hu : ∀ w ∈ l, p w = true → w = v) : l.find? p = some v := by
  induction l with
  | nil => cases hv
  | cons a t ih =>
    by_cases ha : p a = true
    · have : a = v := hu a (List.mem_cons_self a t) ha
      subst this
      simp [List.find?, ha]
    · have hav : v ≠ a := fun e => ha (e ▸ hp)
      have hvt : v ∈ t := by
        rcases List.mem_cons.mp hv with e | h
        · exact absurd e hav
        · exact h
      have := ih hvt (fun w hw => hu w (List.mem_cons_of_mem a hw))
      simp only [Bool.not_eq_true] at ha
      simp [List.find?, ha, this]

theorem row_eq_of_id_eq (s : Store) (hwf : s.WF) (v w : Visitor) (hv : v ∈ s.visitors)
    (hw : w ∈ s.visitors) (h : w.id = v.id) : w = v :=
  List.inj_on_of_nodup_map hwf.1 hw hv h

theorem findVisitor_mem (s : Store) (hwf : s.WF) (v : Visitor) (hv : v ∈ s.visitors) :
    findVisitor s v.id = some v := by
  unfold findVisitor
  apply find_unique _ _ _ hv (by simp)
  intro w hw hp
  exact row_eq_of_id_eq s hwf v w hv hw (by simpa using hp)

theorem findVisitor_none (s : Store) (id : Nat) (h : ∀ v ∈ s.visitors, v.id ≠ id) :
    findVisitor s id = none := by
  unfold findVisitor
  rw [List.find?_eq_none]
  intro v hv
  simpa using h v hv

theorem mapRow_eq_replaceRow (s : Store) (hwf : s.WF) (v : Visitor) (hv : v ∈ s.visitors)
    (f : Visitor → Visitor) : mapRow s v.id f = s.replaceRow v (f v) := by
  unfold mapRow Store.replaceRow
  congr 1
  apply List.map_congr_left
  intro w hw
  by_cases e : w = v
  · subst e; simp
  · have : w.id ≠ v.id := fun h => e (row_eq_of_id_eq s hwf v w hv hw h)
    simp [e, this]

theorem mapRow_absent (s : Store) (id : Nat) (f : Visitor → Visitor)
    (h : ∀ v ∈ s.visitors, v.id ≠ id) : mapRow s id f = s := by
  unfold mapRow
  have : s.visitors.map (fun v => if v.id = id then f v else v) = s.visitors := by
    conv_rhs => rw [← List.map_id s.visitors]
    apply List.map_congr_left
    intro w hw
    simp [h w hw]
  rw [this]

theorem mapRow_ids (s : Store) (id : Nat) (f : Visitor → Visitor) (hf : ∀ v, (f v).id = v.id) :
    (mapRow s id f).visitors.map Visitor.id = s.visitors.map Visitor.id := by
  unfold mapRow
  simp only [List.map_map]
  apply List.map_congr_left
  intro w _
  by_cases e : w.id = id <;> simp [e, hf]

theorem findVisitor_mapRow (s : Store) (hwf : s.WF) (v : Visitor) (hv : v ∈ s.visitors)
    (f : Visitor → Visitor) (hf : ∀ w, (f w).id = w.id) :
    findVisitor (mapRow s v.id f) v.id = some (f v) := by
  unfold findVisitor
  apply find_unique
  · unfold mapRow
    simp only [List.mem_map]
    exact ⟨v, hv, by simp⟩
  · simp [hf]
  · intro w hw hp
    unfold mapRow at hw
    simp only [List.mem_map] at hw
    obtain ⟨u, hu, rfl⟩ := hw
    by_cases e : u.id = v.id
    · have := row_eq_of_id_eq s hwf v u hv hu e
      subst this
      simp
    · simp [e] at hp

/-! ## Approval links -/

theorem findPending_none (s : Store) (id : Nat) (token : String)
    (h : ∀ v ∈ s.visitors, ¬ (v.id = id ∧ v.approvalToken = token ∧ v.status = "pending")) :
    findPending s id token = none := by
  unfold findPending
  rw [List.find?_eq_none]
  intro v hv
  have := h v hv
  simpa [and_assoc] using this

theorem findPending_mem (s : Store) (hwf : s.WF) (v : Visitor) (hv : v ∈ s.visitors)
    (hp : v.status = "pending") : findPending s v.id v.approvalToken = some v := by
  unfold findPending
  apply find_unique _ _ _ hv (by simp [hp])
  intro w hw hpw
  simp only [Bool.and_eq_true, beq_iff_eq] at hpw
  exact row_eq_of_id_eq s hwf v w hv hw hpw.1.1

theorem approveLink_none (env : MailEnv) (s : Store) (id : Nat) (token : String)
    (h : findPending s id token = none) :
    approveLink env s id token =
      { store := s, response := .html (errorPage "Invalid or expired approval link."),
        sent := [] } := by
  unfold approveLink
  rw [h]

theorem rejectLink_none (env : MailEnv) (s : Store) (id : Nat) (token : String)
    (h : findPending s id token = none) :
    rejectLink env s id token =
      { store := s, response := .html (errorPage "Invalid or expired rejection link."),
        sent := [] } := by
  unfold rejectLink
  rw [h]

theorem approveLink_pending (env : MailEnv) (s : Store) (v : Visitor) (hwf : s.WF)
    (hv : v ∈ s.visitors) (hp : v.status = "pending") :
    approveLink env s v.id v.approvalToken =
      { store := s.replaceRow v { v with status := "approved" }
        response := .html (successPage "Visitor approved successfully!"
          ("Verification code sent to " ++ v.visitorEmail))
        sent := sendMail env
          { recipient := v.visitorEmail, subject := "Visit Approved - Verification Code" } } := by
  unfold approveLink updateRow
  rw [findPending_mem s hwf v hv hp, findVisitor_mem s hwf v hv]
  simp only [mapRow_eq_replaceRow s hwf v hv]

theorem rejectLink_pending (env : MailEnv) (s : Store) (v : Visitor) (hwf : s.WF)
    (hv : v ∈ s.visitors) (hp : v.status = "pending") :
    rejectLink env s v.id v.approvalToken =
      { store := s.replaceRow v { v with status := "rejected" }
        response := .html (successPage "Visitor rejected."
          (v.visitorName ++ " has been notified."))
        sent := sendMail env
          { recipient := v.visitorEmail, subject := "Visit Request Update" } } := by
  unfold rejectLink updateRow
  rw [findPending_mem s hwf v hv hp, findVisitor_mem s hwf v hv]
  simp only [mapRow_eq_replaceRow s hwf v hv]

theorem sampleStore_wf : sampleStore.WF := by
  constructor
  · decide
  · intro v hv
    simp only [sampleStore, List.mem_cons, List.mem_singleton, List.not_mem_nil, or_false] at hv
    rcases hv with rfl | rfl | rfl <;> decide

/-- C3: when no visitor matches the id, the token and the pending status,
the approve route leaves the store unchanged, sends nothing and answers with
one fixed error page, whatever the cause (unknown id, wrong token, visitor
already approved or rejected); the reject route does the same with its own
fixed error page. -/
theorem link_error_uniform (env : MailEnv) (s : Store) (id : Nat) (token : String)
    (h : ∀ v ∈ s.visitors, ¬ (v.id = id ∧ v.approvalToken = token ∧ v.status = "pending")) :
    approveLink env s id token =
        { store := s, response := .html (errorPage "Invalid or expired approval link."),
          sent := [] } ∧
      rejectLink env s id token =
        { store := s, response := .html (errorPage "Invalid or expired rejection link."),
          sent := [] } :=
  ⟨approveLink_none env s id token (findPending_none s id token h),
    rejectLink_none env s id token (findPending_none s id token h)⟩

/-- Instance of C3: the approved visitor 2 of the sample store, called with
its own id and token. -/
theorem link_error_uniform_witness :
    (∀ v ∈ sampleStore.visitors,
      ¬ (v.id = 2 ∧ v.approvalToken = "c0ffee" ∧ v.status = "pending")) ∧
    approveLink ⟨true, true⟩ sampleStore 2 "c0ffee" =
        { store := sampleStore, response := .html (errorPage "Invalid or expired approval link."),
          sent := [] } ∧
      rejectLink ⟨true, true⟩ sampleStore 2 "c0ffee" =
        { store := sampleStore, response := .html (errorPage "Invalid or expired rejection link."),
          sent := [] } :=
  ⟨by decide, link_error_uniform ⟨true, true⟩ sampleStore 2 "c0ffee" (by decide)⟩

/-! ## Guard verification, exit marking and status update -/

/-- C5: guard verification with the id and verification code of a stored
visitor, whatever its status, writes the database date and time into its
in-date and in-time, changes nothing else and returns the refreshed record
with the formatted time; when no visitor has both the id and the code, the
answer is 400 "Invalid verification code" and the store is unchanged. -/
theorem guardVerify_checks_code (db : DbClock) (now : TimeOfDay) (s : Store) :
    (∀ v ∈ s.visitors, s.WF →
      guardVerify db now s v.id v.verificationCode =
        { store := s.replaceRow v { v with inDate := some db.date, inTime := some db.time }
          response := .json 200 (.record
            { plain { v with inDate := some db.date, inTime := some db.time } with
              formattedTime := some (formatTime now) })
          sent := [] }) ∧
    (∀ (visitorId : Nat) (code : String),
      (∀ v ∈ s.visitors, ¬ (v.id = visitorId ∧ v.verificationCode = code)) →
      guardVerify db now s visitorId code =
        { store := s, response := .json 400 (.error "Invalid verification code"), sent := [] }) := by
  constructor
  · intro v hv hwf
    have hfind : s.visitors.find? (fun w => w.id == v.id && w.verificationCode == v.verificationCode)
        = some v := by
      apply find_unique _ _ _ hv (by simp)
      intro w hw hpw
      simp only [Bool.and_eq_true, beq_iff_eq] at hpw
      exact row_eq_of_id_eq s hwf v w hv hw hpw.1
    have h1 := findVisitor_mapRow s hwf v hv
      (fun w => { w with inDate := some db.date, inTime := some db.time }) (fun _ => rfl)
    unfold guardVerify
    rw [hfind]
    simp only [h1]
    rw [mapRow_eq_replaceRow s hwf v hv]
  · intro visitorId code h
    have hfind : s.visitors.find? (fun w => w.id == visitorId && w.verificationCode == code)
        = none := by
      rw [List.find?_eq_none]
      intro w hw
      simpa using h w hw
    unfold guardVerify
    rw [hfind]

/-- Instance of C5: the rejected visitor 3 of the sample store is checked
in with its code, and refused with another code. -/
theorem guardVerify_checks_code_witness :
    (sampleVisitor 3 "rejected" ∈ sampleStore.visitors ∧ sampleStore.WF ∧
      ∀ v ∈ sampleStore.visitors, ¬ (v.id = 3 ∧ v.verificationCode = "0000")) ∧
    (guardVerify ⟨7, ⟨13, 5⟩⟩ ⟨13, 6⟩ sampleStore 3 "4821").store =
      sampleStore.replaceRow (sampleVisitor 3 "rejected")
        { sampleVisitor 3 "rejected" with inDate := some 7, inTime := some ⟨13, 5⟩ } ∧
    guardVerify ⟨7, ⟨13, 5⟩⟩ ⟨13, 6⟩ sampleStore 3 "0000" =
      { store := sampleStore, response := .json 400 (.error "Invalid verification code"),
        sent := [] } :=
  ⟨⟨by decide, sampleStore_wf, by decide⟩,
    congrArg Outcome.store
      ((guardVerify_checks_code ⟨7, ⟨13, 5⟩⟩ ⟨13, 6⟩ sampleStore).1
        (sampleVisitor 3 "rejected") (by decide) sampleStore_wf),
    (guardVerify_checks_code ⟨7, ⟨13, 5⟩⟩ ⟨13, 6⟩ sampleStore).2 3 "0000" (by decide)⟩

/-- C6: exit marking of a stored visitor writes the database date and time
into its out-date and out-time, whether or not in-date and in-time are set,
leaves every other field of the row, every other row and the rest of the
store unchanged, and returns the refreshed record with the formatted
out-time. -/
theorem visitorExit_stamps_out (db : DbClock) (now : TimeOfDay) (s : Store) (v : Visitor)
    (hwf : s.WF) (hv : v ∈ s.visitors) :
    visitorExit db now s v.id =
      { store := s.replaceRow v { v with outDate := some db.date, outTime := some db.time }
        response := .json 200 (.record
          { plain { v with outDate := some db.date, outTime := some db.time } with
            formattedOutTime := some (formatTime now) })
        sent := [] } := by
  have h1 := findVisitor_mapRow s hwf v hv
    (fun w => { w with outDate := some db.date, outTime := some db.time }) (fun _ => rfl)
  unfold visitorExit
  simp only [h1]
  rw [mapRow_eq_replaceRow s hwf v hv]

/-- Instance of C6: visitor 1 of the sample store, which was never checked
in. -/
theorem visitorExit_stamps_out_witness :
    (sampleStore.WF ∧ sampleVisitor 1 "pending" ∈ sampleStore.visitors ∧
      (sampleVisitor 1 "pending").inTime = none) ∧
    visitorExit ⟨7, ⟨18, 30⟩⟩ ⟨18, 30⟩ sampleStore 1 =
      { store := sampleStore.replaceRow (sampleVisitor 1 "pending")
          { sampleVisitor 1 "pending" with outDate := some 7, outTime := some ⟨18, 30⟩ }
        response := .json 200 (.record
          { plain { sampleVisitor 1 "pending" with outDate := some 7, outTime := some ⟨18, 30⟩ } with
            formattedOutTime := some "6:30 PM" })
        sent := [] } :=
  ⟨⟨sampleStore_wf, by decide, rfl⟩,
    visitorExit_stamps_out ⟨7, ⟨18, 30⟩⟩ ⟨18, 30⟩ sampleStore (sampleVisitor 1 "pending")
      sampleStore_wf (by decide)⟩

/-- C9: the status update of a stored visitor sets its status to the target,
whatever the current status and whatever the target, changes no other field,
no other row and nothing else in the store, and returns the updated
record. -/
theorem visitorStatus_sets_target (env : MailEnv) (s : Store) (v : Visitor) (target : String)
    (hwf : s.WF) (hv : v ∈ s.visitors) :
    (visitorStatus env s v.id target).store = s.replaceRow v { v with status := target } ∧
    (visitorStatus env s v.id target).response =
      .json 200 (.record (plain { v with status := target })) := by
  unfold visitorStatus updateRow
  rw [findVisitor_mem s hwf v hv]
  exact ⟨mapRow_eq_replaceRow s hwf v hv _, rfl⟩

/-- Instance of C9: the rejected visitor 3 of the sample store is set to
"approved". -/
theorem visitorStatus_sets_target_witness :
    (sampleStore.WF ∧ sampleVisitor 3 "rejected" ∈ sampleStore.visitors) ∧
    (visitorStatus ⟨true, true⟩ sampleStore 3 "approved").store =
      sampleStore.replaceRow (sampleVisitor 3 "rejected") (sampleVisitor 3 "approved") ∧
    (visitorStatus ⟨true, true⟩ sampleStore 3 "approved").response =
      .json 200 (.record (plain (sampleVisitor 3 "approved"))) :=
  ⟨⟨sampleStore_wf, by decide⟩,
    visitorStatus_sets_target ⟨true, true⟩ sampleStore (sampleVisitor 3 "rejected") "approved"
      sampleStore_wf (by decide)⟩

/-! ## Listing -/

theorem newestFirst_perm (vs : List Visitor) : (newestFirst vs).Perm vs :=
  List.perm_insertionSort _ vs

theorem newestFirst_sorted (vs : List Visitor) :
    (newestFirst vs).Sorted (fun a b => a.createdAt ≥ b.createdAt) := by
  haveI : IsTotal Visitor (fun a b => a.createdAt ≥ b.createdAt) :=
    ⟨fun a b => Nat.le_total b.createdAt a.createdAt⟩
  haveI : IsTrans Visitor (fun a b => a.createdAt ≥ b.createdAt) :=
    ⟨fun _ _ _ hab hbc => Nat.le_trans hbc hab⟩
  exact List.sorted_insertionSort _ vs

/-- C8: listing leaves the store unchanged and answers 200 with a list of
records whose rows are the stored visitors, each exactly once, ordered by
createdAt from newest to oldest; every record carries formattedTime exactly
when its inTime is set and formattedOutTime exactly when its outTime is set,
each the 12-hour format of that stored time. -/
theorem listVisitors_newest_first (s : Store) :
    (listVisitors s).store = s ∧
    ∃ L : List VisitorView,
      (listVisitors s).response = .json 200 (.records L) ∧
      (L.map VisitorView.visitor).Perm s.visitors ∧
      (L.map VisitorView.visitor).Sorted (fun a b => a.createdAt ≥ b.createdAt) ∧
      ∀ x ∈ L,
        (x.formattedTime.isSome ↔ x.visitor.inTime.isSome) ∧
        (x.formattedOutTime.isSome ↔ x.visitor.outTime.isSome) ∧
        (∀ t, x.visitor.inTime = some t → x.formattedTime = some (formatTime t)) ∧
        (∀ t, x.visitor.outTime = some t → x.formattedOutTime = some (formatTime t)) := by
  refine ⟨rfl, (newestFirst s.visitors).map (withFormattedTime s), rfl, ?_, ?_, ?_⟩
  · have e : ((newestFirst s.visitors).map (withFormattedTime s)).map VisitorView.visitor
        = newestFirst s.visitors := by
      rw [List.map_map]
      conv_rhs => rw [← List.map_id (newestFirst s.visitors)]
      rfl
    rw [e]
    exact newestFirst_perm s.visitors
  · have e : ((newestFirst s.visitors).map (withFormattedTime s)).map VisitorView.visitor
        = newestFirst s.visitors := by
      rw [List.map_map]
      conv_rhs => rw [← List.map_id (newestFirst s.visitors)]
      rfl
    rw [e]
    exact newestFirst_sorted s.visitors
  · intro x hx
    simp only [List.mem_map] at hx
    obtain ⟨v, _, rfl⟩ := hx
    refine ⟨?_, ?_, ?_, ?_⟩
    · simp [withFormattedTime]
    · simp [withFormattedTime]
    · intro t ht
      simp only [withFormattedTime] at ht ⊢
      rw [ht]; rfl
    · intro t ht
      simp only [withFormattedTime] at ht ⊢
      rw [ht]; rfl

/-! ## The store after each handler -/

theorem visitorRequest_store (env : MailEnv) (rc : ResidentCreate) (r : ℚ) (token : String)
    (now : Nat) (s : Store) (body : RequestBody) :
    (visitorRequest env rc r token now s body).store = s ∨
    ∃ s1 : Store, s1.visitors = s.visitors ∧ s1.nextVisitorId = s.nextVisitorId ∧
      (visitorRequest env rc r token now s body).store =
        { s1 with visitors := s1.visitors ++ [newVisitorRow s1 body r token now]
                  nextVisitorId := s1.nextVisitorId + 1 } := by
  unfold visitorRequest
  cases he : ensureResident rc s body with
  | error resp => exact Or.inl rfl
  | ok s1 =>
    obtain ⟨h1, h2⟩ := ensureResident_ok rc s s1 body he
    exact Or.inr ⟨s1, h1, h2, rfl⟩

theorem visitorStatus_store (env : MailEnv) (s : Store) (id : Nat) (status : String) :
    (visitorStatus env s id status).store = s ∨
    (visitorStatus env s id status).store = mapRow s id (fun v => { v with status := status }) := by
  unfold visitorStatus updateRow
  cases findVisitor s id with
  | none => exact Or.inl rfl
  | some v => exact Or.inr rfl

theorem guardVerify_store (db : DbClock) (now : TimeOfDay) (s : Store) (visitorId : Nat)
    (code : String) :
    (guardVerify db now s visitorId code).store = s ∨
    (guardVerify db now s visitorId code).store =
      mapRow s visitorId (fun v => { v with inDate := some db.date, inTime := some db.time }) := by
  unfold guardVerify
  split
  · exact Or.inl rfl
  · dsimp only
    split <;> exact Or.inr rfl

theorem visitorExit_store (db : DbClock) (now : TimeOfDay) (s : Store) (id : Nat) :
    (visitorExit db now s id).store =
      mapRow s id (fun v => { v with outDate := some db.date, outTime := some db.time }) := by
  unfold visitorExit
  dsimp only
  split <;> rfl

theorem approveLink_store (env : MailEnv) (s : Store) (id : Nat) (token : String) :
    (approveLink env s id token).store = s ∨
    ((∃ v, findPending s id token = some v) ∧
      (approveLink env s id token).store = mapRow s id (fun v => { v with status := "approved" })) := by
  unfold approveLink updateRow
  cases hf : findPending s id token with
  | none => exact Or.inl rfl
  | some v =>
    cases findVisitor s id with
    | none => exact Or.inl rfl
    | some w => exact Or.inr ⟨⟨v, rfl⟩, rfl⟩

theorem rejectLink_store (env : MailEnv) (s : Store) (id : Nat) (token : String) :
    (rejectLink env s id token).store = s ∨
    ((∃ v, findPending s id token = some v) ∧
      (rejectLink env s id token).store = mapRow s id (fun v => { v with status := "rejected" })) := by
  unfold rejectLink updateRow
  cases hf : findPending s id token with
  | none => exact Or.inl rfl
  | some v =>
    cases findVisitor s id with
    | none => exact Or.inl rfl
    | some w => exact Or.inr ⟨⟨v, rfl⟩, rfl⟩

/-! ## The primary key in every reachable state -/

theorem mapRow_wf (s : Store) (hwf : s.WF) (id : Nat) (f : Visitor → Visitor)
    (hf : ∀ v, (f v).id = v.id) : (mapRow s id f).WF := by
  constructor
  · rw [mapRow_ids s id f hf]; exact hwf.1
  · intro w hw
    have hmem : w.id ∈ (mapRow s id f).visitors.map Visitor.id := List.mem_map_of_mem _ hw
    rw [mapRow_ids s id f hf] at hmem
    obtain ⟨u, hu, hid⟩ := List.mem_map.mp hmem
    have := hwf.2 u hu
    show w.id < s.nextVisitorId
    omega

theorem step_wf (s : Store) (hwf : s.WF) (op : Op) : (step s op).WF := by
  cases op with
  | getVisitor id =>
    show (getVisitor s id).store.WF
    unfold getVisitor; split <;> exact hwf
  | listVisitors => exact hwf
  | visitorRequest env rc r token now body =>
    show (visitorRequest env rc r token now s body).store.WF
    rcases visitorRequest_store env rc r token now s body with h | ⟨s1, h1, h2, h⟩
    · rw [h]; exact hwf
    · rw [h]
      constructor
      · show ((s1.visitors ++ [newVisitorRow s1 body r token now]).map Visitor.id).Nodup
        rw [List.map_append, h1]
        apply List.Nodup.append hwf.1 (by simp)
        intro a ha hb
        obtain ⟨u, hu, hid⟩ := List.mem_map.mp ha
        have hlt := hwf.2 u hu
        simp only [List.map_cons, List.map_nil, List.mem_singleton] at hb
        have : a = s.nextVisitorId := by rw [hb, ← h2]; rfl
        omega
      · intro w hw
        show w.id < s1.nextVisitorId + 1
        have hw2 : w ∈ s1.visitors ++ [newVisitorRow s1 body r token now] := hw
        rcases List.mem_append.mp hw2 with hw3 | hw3
        · rw [h1] at hw3
          have := hwf.2 w hw3
          omega
        · rw [List.mem_singleton.mp hw3]
          show s1.nextVisitorId < s1.nextVisitorId + 1
          omega
  | visitorStatus env id status =>
    show (visitorStatus env s id status).store.WF
    rcases visitorStatus_store env s id status with h | h <;> rw [h]
    · exact hwf
    · exact mapRow_wf s hwf id _ (fun _ => rfl)
  | guardVerify db now visitorId code =>
    show (guardVerify db now s visitorId code).store.WF
    rcases guardVerify_store db now s visitorId code with h | h <;> rw [h]
    · exact hwf
    · exact mapRow_wf s hwf visitorId _ (fun _ => rfl)
  | visitorExit db now id =>
    show (visitorExit db now s id).store.WF
    rw [visitorExit_store]
    exact mapRow_wf s hwf id _ (fun _ => rfl)
  | approveLink env id token =>
    show (approveLink env s id token).store.WF
    rcases approveLink_store env s id token with h | ⟨_, h⟩ <;> rw [h]
    · exact hwf
    · exact mapRow_wf s hwf id _ (fun _ => rfl)
  | rejectLink env id token =>
    show (rejectLink env s id token).store.WF
    rcases rejectLink_store env s id token with h | ⟨_, h⟩ <;> rw [h]
    · exact hwf
    · exact mapRow_wf s hwf id _ (fun _ => rfl)

theorem run_wf (ops : List Op) (s : Store) (hwf : s.WF) : (run s ops).WF := by
  induction ops generalizing s with
  | nil => exact hwf
  | cons op t ih => exact ih (step s op) (step_wf s hwf op)

/-- Every reachable store satisfies the primary-key invariant. -/
theorem reachable_wf (s : Store) (h : Reachable s) : s.WF := by
  obtain ⟨ops, rfl⟩ := h
  exact run_wf ops Store.empty ⟨List.nodup_nil, fun _ hv => by cases hv⟩

/-! ## Status values and status transitions -/

theorem mapRow_mem (s : Store) (id : Nat) (f : Visitor → Visitor) (w : Visitor)
    (hw : w ∈ (mapRow s id f).visitors) :
    ∃ u ∈ s.visitors, (u.id = id ∧ w = f u) ∨ (u.id ≠ id ∧ w = u) := by
  unfold mapRow at hw
  simp only [List.mem_map] at hw
  obtain ⟨u, hu, rfl⟩ := hw
  refine ⟨u, hu, ?_⟩
  by_cases e : u.id = id
  · exact Or.inl ⟨e, by simp [e]⟩
  · exact Or.inr ⟨e, by simp [e]⟩

theorem mapRow_valid (s : Store) (id : Nat) (f : Visitor → Visitor)
    (hs : ∀ v ∈ s.visitors, ValidStatus v.status)
    (hf : ∀ v, ValidStatus v.status → ValidStatus (f v).status) :
    ∀ v ∈ (mapRow s id f).visitors, ValidStatus v.status := by
  intro w hw
  obtain ⟨u, hu, h | h⟩ := mapRow_mem s id f w hw
  · rw [h.2]; exact hf u (hs u hu)
  · rw [h.2]; exact hs u hu

theorem step_valid (s : Store) (hs : ∀ v ∈ s.visitors, ValidStatus v.status) (op : Op)
    (hop : op.targetValid) : ∀ v ∈ (step s op).visitors, ValidStatus v.status := by
  cases op with
  | getVisitor id =>
    show ∀ v ∈ (getVisitor s id).store.visitors, ValidStatus v.status
    unfold getVisitor; split <;> exact hs
  | listVisitors => exact hs
  | visitorRequest env rc r token now body =>
    show ∀ v ∈ (visitorRequest env rc r token now s body).store.visitors, ValidStatus v.status
    rcases visitorRequest_store env rc r token now s body with h | ⟨s1, h1, _, h⟩
    · rw [h]; exact hs
    · rw [h]
      intro w hw
      have hw2 : w ∈ s1.visitors ++ [newVisitorRow s1 body r token now] := hw
      rcases List.mem_append.mp hw2 with hw3 | hw3
      · rw [h1] at hw3; exact hs w hw3
      · rw [List.mem_singleton.mp hw3]; exact Or.inl rfl
  | visitorStatus env id status =>
    show ∀ v ∈ (visitorStatus env s id status).store.visitors, ValidStatus v.status
    rcases visitorStatus_store env s id status with h | h <;> rw [h]
    · exact hs
    · exact mapRow_valid s id _ hs (fun _ _ => hop)
  | guardVerify db now visitorId code =>
    show ∀ v ∈ (guardVerify db now s visitorId code).store.visitors, ValidStatus v.status
    rcases guardVerify_store db now s visitorId code with h | h <;> rw [h]
    · exact hs
    · exact mapRow_valid s visitorId _ hs (fun _ hv => hv)
  | visitorExit db now id =>
    show ∀ v ∈ (visitorExit db now s id).store.visitors, ValidStatus v.status
    rw [visitorExit_store]
    exact mapRow_valid s id _ hs (fun _ hv => hv)
  | approveLink env id token =>
    show ∀ v ∈ (approveLink env s id token).store.visitors, ValidStatus v.status
    rcases approveLink_store env s id token with h | ⟨_, h⟩ <;> rw [h]
    · exact hs
    · exact mapRow_valid s id _ hs (fun _ _ => Or.inr (Or.inl rfl))
  | rejectLink env id token =>
    show ∀ v ∈ (rejectLink env s id token).store.visitors, ValidStatus v.status
    rcases rejectLink_store env s id token with h | ⟨_, h⟩ <;> rw [h]
    · exact hs
    · exact mapRow_valid s id _ hs (fun _ _ => Or.inr (Or.inr rfl))

theorem run_valid (ops : List Op) (s : Store) (hs : ∀ v ∈ s.visitors, ValidStatus v.status)
    (hops : ∀ op ∈ ops, op.targetValid) : ∀ v ∈ (run s ops).visitors, ValidStatus v.status := by
  induction ops generalizing s with
  | nil => exact hs
  | cons op t ih =>
    exact ih (step s op) (step_valid s hs op (hops op (List.mem_cons_self op t)))
      (fun o ho => hops o (List.mem_cons_of_mem op ho))

/-- The handler of the status update does not check its target: over a
status column that stores any text, the state after a visitor request and a
status update with the target "archived" holds a visitor whose status is none
of "pending", "approved", "rejected". -/
theorem status_not_always_valid :
    ¬ ∀ s : Store, Reachable s → ∀ v ∈ s.visitors, ValidStatus v.status := by
  intro h
  have hs := h (run Store.empty strayOps) ⟨strayOps, rfl⟩
  have hst : ∀ st ∈ (run Store.empty strayOps).visitors.map Visitor.status, ValidStatus st := by
    intro st hst
    obtain ⟨v, hv, rfl⟩ := List.mem_map.mp hst
    exact hs v hv
  have e : (run Store.empty strayOps).visitors.map Visitor.status = ["archived"] := rfl
  rw [e] at hst
  have := hst "archived" (List.mem_singleton.mpr rfl)
  unfold ValidStatus at this
  revert this
  decide

/-- Whatever the status column stores, in every state reached from the
empty database through requests whose status updates ask for "pending",
"approved" or "rejected", every visitor's status is one of these three. -/
theorem status_valid_of_valid_targets (ops : List Op) (hops : ∀ op ∈ ops, op.targetValid) :
    ∀ v ∈ (run Store.empty ops).visitors, ValidStatus v.status :=
  run_valid ops Store.empty (fun _ hv => by cases hv) hops

/-- An instance: a request, the reject link and a status update to
"approved". -/
theorem status_valid_of_valid_targets_witness :
    (∀ op ∈ validOps, op.targetValid) ∧
    ∀ v ∈ (run Store.empty validOps).visitors, ValidStatus v.status :=
  ⟨by
      intro op hop
      simp only [validOps, List.mem_cons, List.mem_singleton, List.not_mem_nil, or_false] at hop
      rcases hop with rfl | rfl | rfl
      · trivial
      · trivial
      · exact Or.inr (Or.inl rfl),
    status_valid_of_valid_targets validOps (by
      intro op hop
      simp only [validOps, List.mem_cons, List.mem_singleton, List.not_mem_nil, or_false] at hop
      rcases hop with rfl | rfl | rfl
      · trivial
      · trivial
      · exact Or.inr (Or.inl rfl))⟩

/-- Every request other than a status update keeps the status of a stored
visitor or moves it from "pending" to "approved" or "rejected". -/
theorem status_step_guarded (s : Store) (hwf : s.WF) (op : Op)
    (hop : ¬ op.isStatusUpdate)
    (v w : Visitor) (hv : v ∈ s.visitors) (hw : w ∈ (step s op).visitors) (hid : w.id = v.id) :
    w.status = v.status ∨
      (v.status = "pending" ∧ (w.status = "approved" ∨ w.status = "rejected")) := by
  have same : ∀ s2 : Store, s2 = s → w ∈ s2.visitors → w.status = v.status := by
    intro s2 e hw2
    rw [e] at hw2
    rw [row_eq_of_id_eq s hwf v w hv hw2 hid]
  have keep : ∀ (id : Nat) (f : Visitor → Visitor), w ∈ (mapRow s id f).visitors →
      (∀ u, (f u).id = u.id) → (∀ u, (f u).status = u.status) → w.status = v.status := by
    intro id f hw2 hfid hfst
    obtain ⟨u, hu, h | h⟩ := mapRow_mem s id f w hw2
    · have : u = v := row_eq_of_id_eq s hwf v u hv hu (by rw [← hid, h.2, hfid])
      rw [h.2, hfst, this]
    · have : u = v := row_eq_of_id_eq s hwf v u hv hu (by rw [← hid, h.2])
      rw [h.2, this]
  have decide_link : ∀ (id : Nat) (token st : String),
      (∃ p, findPending s id token = some p) →
      w ∈ (mapRow s id (fun u => { u with status := st })).visitors →
      w.status = v.status ∨ (v.status = "pending" ∧ w.status = st) := by
    intro id token st hp hw2
    obtain ⟨p, hp⟩ := hp
    have hpm : p ∈ s.visitors := List.mem_of_find?_eq_some hp
    have hpp := List.find?_some hp
    simp only [Bool.and_eq_true, beq_iff_eq] at hpp
    obtain ⟨u, hu, h | h⟩ := mapRow_mem s id _ w hw2
    · have huv : u = v := row_eq_of_id_eq s hwf v u hv hu (by rw [← hid, h.2])
      have hpv : p = v := row_eq_of_id_eq s hwf v p hv hpm (by rw [hpp.1.1, ← h.1, huv])
      right
      exact ⟨by rw [← hpv]; exact hpp.2, by rw [h.2]⟩
    · have : u = v := row_eq_of_id_eq s hwf v u hv hu (by rw [← hid, h.2])
      left
      rw [h.2, this]
  cases op with
  | getVisitor id =>
    apply Or.inl
    apply same _ _ hw
    show (getVisitor s id).store = s
    unfold getVisitor; split <;> rfl
  | listVisitors => exact Or.inl (same _ rfl hw)
  | visitorRequest env rc r token now body =>
    apply Or.inl
    have hw1 : w ∈ (visitorRequest env rc r token now s body).store.visitors := hw
    rcases visitorRequest_store env rc r token now s body with h | ⟨s1, h1, h2, h⟩
    · exact same _ h hw1
    · rw [h] at hw1
      have hw2 : w ∈ s1.visitors ++ [newVisitorRow s1 body r token now] := hw1
      rcases List.mem_append.mp hw2 with hw3 | hw3
      · rw [h1] at hw3
        rw [row_eq_of_id_eq s hwf v w hv hw3 hid]
      · have hlt := hwf.2 v hv
        have : w.id = s.nextVisitorId := by rw [List.mem_singleton.mp hw3, ← h2]; rfl
        omega
  | visitorStatus env id status => exact absurd trivial hop
  | guardVerify db now visitorId code =>
    apply Or.inl
    have hw1 : w ∈ (guardVerify db now s visitorId code).store.visitors := hw
    rcases guardVerify_store db now s visitorId code with h | h
    · exact same _ h hw1
    · rw [h] at hw1
      exact keep visitorId _ hw1 (fun _ => rfl) (fun _ => rfl)
  | visitorExit db now id =>
    apply Or.inl
    have hw1 : w ∈ (visitorExit db now s id).store.visitors := hw
    rw [visitorExit_store] at hw1
    exact keep id _ hw1 (fun _ => rfl) (fun _ => rfl)
  | approveLink env id token =>
    have hw1 : w ∈ (approveLink env s id token).store.visitors := hw
    rcases approveLink_store env s id token with h | ⟨hp, h⟩
    · exact Or.inl (same _ h hw1)
    · rw [h] at hw1
      rcases decide_link id token "approved" hp hw1 with h2 | h2
      · exact Or.inl h2
      · exact Or.inr ⟨h2.1, Or.inl h2.2⟩
  | rejectLink env id token =>
    have hw1 : w ∈ (rejectLink env s id token).store.visitors := hw
    rcases rejectLink_store env s id token with h | ⟨hp, h⟩
    · exact Or.inl (same _ h hw1)
    · rw [h] at hw1
      rcases decide_link id token "rejected" hp hw1 with h2 | h2
      · exact Or.inl h2
      · exact Or.inr ⟨h2.1, Or.inr h2.2⟩

/-- C1 at its failing input: after a visitor request and the approve link
the visitor with id 1 is "approved", and a status update with the target
"rejected" then changes its status to "rejected". -/
theorem visitorStatus_reopens_decided :
    (findVisitor (run Store.empty decidedOps) 1).map Visitor.status = some "approved" ∧
    (findVisitor (step (run Store.empty decidedOps) (.visitorStatus ⟨true, true⟩ 1 "rejected")) 1).map
      Visitor.status = some "rejected" ∧
    (findVisitor (step (run Store.empty decidedOps) (.visitorStatus ⟨true, true⟩ 1 "pending")) 1).map
      Visitor.status = some "pending" :=
  ⟨rfl, rfl, rfl⟩

/-! ## A decided visitor and its approval token -/

theorem step_shape (s : Store) (op : Op) :
    step s op = s ∨
    (∃ (id : Nat) (f : Visitor → Visitor), step s op = mapRow s id f ∧ ∀ u, (f u).id = u.id) ∨
    (∃ row : Visitor, row.id = s.nextVisitorId ∧ (step s op).visitors = s.visitors ++ [row]) := by
  cases op with
  | getVisitor id =>
    left
    show (getVisitor s id).store = s
    unfold getVisitor; split <;> rfl
  | listVisitors => exact Or.inl rfl
  | visitorRequest env rc r token now body =>
    rcases visitorRequest_store env rc r token now s body with h | ⟨s1, h1, h2, h⟩
    · exact Or.inl h
    · right; right
      refine ⟨newVisitorRow s1 body r token now, h2, ?_⟩
      show (visitorRequest env rc r token now s body).store.visitors = _
      rw [h, ← h1]
  | visitorStatus env id status =>
    rcases visitorStatus_store env s id status with h | h
    · exact Or.inl h
    · exact Or.inr (Or.inl ⟨id, _, h, fun _ => rfl⟩)
  | guardVerify db now visitorId code =>
    rcases guardVerify_store db now s visitorId code with h | h
    · exact Or.inl h
    · exact Or.inr (Or.inl ⟨visitorId, _, h, fun _ => rfl⟩)
  | visitorExit db now id =>
    exact Or.inr (Or.inl ⟨id, _, visitorExit_store db now s id, fun _ => rfl⟩)
  | approveLink env id token =>
    rcases approveLink_store env s id token with h | ⟨_, h⟩
    · exact Or.inl h
    · exact Or.inr (Or.inl ⟨id, _, h, fun _ => rfl⟩)
  | rejectLink env id token =>
    rcases rejectLink_store env s id token with h | ⟨_, h⟩
    · exact Or.inl h
    · exact Or.inr (Or.inl ⟨id, _, h, fun _ => rfl⟩)

theorem step_keeps_id (s : Store) (op : Op) (v : Visitor) (hv : v ∈ s.visitors) :
    ∃ w ∈ (step s op).visitors, w.id = v.id := by
  rcases step_shape s op with h | ⟨id, f, h, hf⟩ | ⟨row, _, h⟩
  · rw [h]; exact ⟨v, hv, rfl⟩
  · rw [h]
    refine ⟨if v.id = id then f v else v, ?_, ?_⟩
    · unfold mapRow
      exact List.mem_map.mpr ⟨v, hv, rfl⟩
    · by_cases e : v.id = id <;> simp [e, hf]
  · rw [h]; exact ⟨v, List.mem_append_left _ hv, rfl⟩

theorem step_decided (s : Store) (hwf : s.WF) (op : Op) (hop : ¬ op.isStatusUpdate) (id : Nat)
    (hd : Decided s id) : Decided (step s op) id := by
  obtain ⟨v, hv, hid, hst⟩ := hd
  obtain ⟨w, hw, hwid⟩ := step_keeps_id s op v hv
  refine ⟨w, hw, by rw [hwid, hid], ?_⟩
  rcases status_step_guarded s hwf op hop v w hv hw hwid with h | h
  · rw [h]; exact hst
  · exact absurd h.1 hst

theorem run_decided (ops : List Op) (s : Store) (hwf : s.WF)
    (hops : ∀ op ∈ ops, ¬ op.isStatusUpdate) (id : Nat) (hd : Decided s id) :
    (run s ops).WF ∧ Decided (run s ops) id := by
  induction ops generalizing s with
  | nil => exact ⟨hwf, hd⟩
  | cons op t ih =>
    exact ih (step s op) (step_wf s hwf op) (fun o ho => hops o (List.mem_cons_of_mem op ho))
      (step_decided s hwf op (hops op (List.mem_cons_self op t)) id hd)

theorem decided_link_call (s : Store) (hwf : s.WF) (id : Nat) (token : String)
    (hd : Decided s id) (op : Op) (hop : op.isLinkCall id token) :
    (handle s op).store = s ∧ ∃ m, (handle s op).response = .html (errorPage m) := by
  obtain ⟨v, hv, hid, hst⟩ := hd
  have hnone : findPending s id token = none := by
    apply findPending_none
    intro w hw hc
    have : w = v := row_eq_of_id_eq s hwf v w hv hw (by rw [hc.1, hid])
    exact hst (this ▸ hc.2.2)
  cases op with
  | approveLink env id2 token2 =>
    obtain ⟨rfl, rfl⟩ := hop
    show (approveLink env s id2 token2).store = s ∧
      ∃ m, (approveLink env s id2 token2).response = .html (errorPage m)
    rw [approveLink_none env s id2 token2 hnone]
    exact ⟨rfl, _, rfl⟩
  | rejectLink env id2 token2 =>
    obtain ⟨rfl, rfl⟩ := hop
    show (rejectLink env s id2 token2).store = s ∧
      ∃ m, (rejectLink env s id2 token2).response = .html (errorPage m)
    rw [rejectLink_none env s id2 token2 hnone]
    exact ⟨rfl, _, rfl⟩
  | _ => exact absurd hop (by simp [Op.isLinkCall])

theorem replaceRow_wf (s : Store) (hwf : s.WF) (v v2 : Visitor) (hv : v ∈ s.visitors)
    (hid : v2.id = v.id) : (s.replaceRow v v2).WF := by
  have e : s.replaceRow v v2 = mapRow s v.id (fun _ => v2) := by
    unfold mapRow Store.replaceRow
    congr 1
    apply List.map_congr_left
    intro w hw
    by_cases c : w = v
    · subst c; simp
    · have : w.id ≠ v.id := fun h => c (row_eq_of_id_eq s hwf v w hv hw h)
      simp [c, this]
  have e2 : mapRow s v.id (fun _ => v2) = mapRow s v.id (fun w => { v2 with id := w.id }) := by
    unfold mapRow
    congr 1
    apply List.map_congr_left
    intro w _
    by_cases c : w.id = v.id
    · simp only [c, if_true]
      cases v2
      simp only at hid
      subst hid
      rfl
    · simp [c]
  rw [e, e2]
  exact mapRow_wf s hwf v.id _ (fun _ => rfl)

theorem replaceRow_decided (s : Store) (v v2 : Visitor) (hv : v ∈ s.visitors)
    (hid : v2.id = v.id) (hst : v2.status ≠ "pending") : Decided (s.replaceRow v v2) v.id := by
  refine ⟨v2, ?_, hid, hst⟩
  unfold Store.replaceRow
  exact List.mem_map.mpr ⟨v, hv, by simp⟩

/-- For a pending visitor v of a store, the approve link called with v's
id and approval token sets v's status to "approved", leaves every other field
of v, every other row and the rest of the store as they were, and answers with
the success page; after that, as long as no status update comes in between,
every call of the approve or reject link with this id and token answers with
an error page and leaves the store unchanged. The reject link does the same
with "rejected". -/
theorem link_decides_once (env : MailEnv) (s : Store) (v : Visitor) (hwf : s.WF)
    (hv : v ∈ s.visitors) (hp : v.status = "pending") :
    ((approveLink env s v.id v.approvalToken).store =
        s.replaceRow v { v with status := "approved" } ∧
      (approveLink env s v.id v.approvalToken).response =
        .html (successPage "Visitor approved successfully!"
          ("Verification code sent to " ++ v.visitorEmail)) ∧
      ∀ (between : List Op) (op : Op), (∀ o ∈ between, ¬ o.isStatusUpdate) →
        op.isLinkCall v.id v.approvalToken →
        (handle (run (approveLink env s v.id v.approvalToken).store between) op).store =
            run (approveLink env s v.id v.approvalToken).store between ∧
          ∃ m, (handle (run (approveLink env s v.id v.approvalToken).store between) op).response =
            .html (errorPage m)) ∧
    ((rejectLink env s v.id v.approvalToken).store =
        s.replaceRow v { v with status := "rejected" } ∧
      (rejectLink env s v.id v.approvalToken).response =
        .html (successPage "Visitor rejected." (v.visitorName ++ " has been notified.")) ∧
      ∀ (between : List Op) (op : Op), (∀ o ∈ between, ¬ o.isStatusUpdate) →
        op.isLinkCall v.id v.approvalToken →
        (handle (run (rejectLink env s v.id v.approvalToken).store between) op).store =
            run (rejectLink env s v.id v.approvalToken).store between ∧
          ∃ m, (handle (run (rejectLink env s v.id v.approvalToken).store between) op).response =
            .html (errorPage m)) := by
  constructor
  · rw [approveLink_pending env s v hwf hv hp]
    refine ⟨rfl, rfl, ?_⟩
    intro between op hb hop
    have h := run_decided between _ (replaceRow_wf s hwf v { v with status := "approved" } hv rfl)
      hb v.id (replaceRow_decided s v { v with status := "approved" } hv rfl (by simp))
    exact decided_link_call _ h.1 v.id v.approvalToken h.2 op hop
  · rw [rejectLink_pending env s v hwf hv hp]
    refine ⟨rfl, rfl, ?_⟩
    intro between op hb hop
    have h := run_decided between _ (replaceRow_wf s hwf v { v with status := "rejected" } hv rfl)
      hb v.id (replaceRow_decided s v { v with status := "rejected" } hv rfl (by simp))
    exact decided_link_call _ h.1 v.id v.approvalToken h.2 op hop

/-- An instance: the pending visitor 1 of the sample store is approved by
the link; after a check-in, the reject link with the same id and token
changes nothing. -/
theorem link_decides_once_witness :
    (sampleStore.WF ∧ sampleVisitor 1 "pending" ∈ sampleStore.visitors ∧
      (sampleVisitor 1 "pending").status = "pending") ∧
    (approveLink ⟨true, true⟩ sampleStore 1 "c0ffee").store =
      sampleStore.replaceRow (sampleVisitor 1 "pending") (sampleVisitor 1 "approved") ∧
    (handle (run (approveLink ⟨true, true⟩ sampleStore 1 "c0ffee").store
        [.guardVerify ⟨7, ⟨9, 0⟩⟩ ⟨9, 0⟩ 1 "4821"]) (.rejectLink ⟨true, false⟩ 1 "c0ffee")).store =
      run (approveLink ⟨true, true⟩ sampleStore 1 "c0ffee").store
        [.guardVerify ⟨7, ⟨9, 0⟩⟩ ⟨9, 0⟩ 1 "4821"] :=
  ⟨⟨sampleStore_wf, by decide, rfl⟩,
    (link_decides_once ⟨true, true⟩ sampleStore (sampleVisitor 1 "pending") sampleStore_wf
      (by decide) rfl).1.1,
    ((link_decides_once ⟨true, true⟩ sampleStore (sampleVisitor 1 "pending") sampleStore_wf
      (by decide) rfl).1.2.2 [.guardVerify ⟨7, ⟨9, 0⟩⟩ ⟨9, 0⟩ 1 "4821"]
      (.rejectLink ⟨true, false⟩ 1 "c0ffee")
      (by intro o ho; rw [List.mem_singleton.mp ho]; exact fun h => h)
      ⟨rfl, rfl⟩).1⟩

/-! ## Mail failures -/

/-- C11: for request intake, status update, link approve and link reject,
the response and the store afterwards are the same for every state of the
mail transport, in particular whether `sendMail` resolves or throws: a mail
failure neither changes the response nor undoes the write. -/
theorem mail_failure_is_silent (env env2 : MailEnv) (s : Store) :
    (∀ (rc : ResidentCreate) (r : ℚ) (token : String) (now : Nat) (body : RequestBody),
      (visitorRequest env rc r token now s body).response =
          (visitorRequest env2 rc r token now s body).response ∧
        (visitorRequest env rc r token now s body).store =
          (visitorRequest env2 rc r token now s body).store) ∧
    (∀ (id : Nat) (status : String),
      (visitorStatus env s id status).response = (visitorStatus env2 s id status).response ∧
        (visitorStatus env s id status).store = (visitorStatus env2 s id status).store) ∧
    (∀ (id : Nat) (token : String),
      (approveLink env s id token).response = (approveLink env2 s id token).response ∧
        (approveLink env s id token).store = (approveLink env2 s id token).store) ∧
    (∀ (id : Nat) (token : String),
      (rejectLink env s id token).response = (rejectLink env2 s id token).response ∧
        (rejectLink env s id token).store = (rejectLink env2 s id token).store) := by
  refine ⟨?_, ?_, ?_, ?_⟩
  · intro rc r token now body
    unfold visitorRequest
    cases ensureResident rc s body <;> exact ⟨rfl, rfl⟩
  · intro id status
    unfold visitorStatus
    cases updateRow s id (fun v => { v with status := status }) <;> exact ⟨rfl, rfl⟩
  · intro id token
    unfold approveLink
    cases findPending s id token with
    | none => exact ⟨rfl, rfl⟩
    | some v =>
      cases updateRow s id (fun v => { v with status := "approved" }) <;> exact ⟨rfl, rfl⟩
  · intro id token
    unfold rejectLink
    cases findPending s id token with
    | none => exact ⟨rfl, rfl⟩
    | some v =>
      cases updateRow s id (fun v => { v with status := "rejected" }) <;> exact ⟨rfl, rfl⟩

/-! ## Exit marking of an unknown id -/

/-- C14: when no stored visitor has the id, exit marking leaves the store
unchanged and answers with status 500, carrying the error thrown when the
formatted out-time is attached to the absent record; it returns neither a
record nor a 404. -/
theorem visitorExit_unknown_id (db : DbClock) (now : TimeOfDay) (s : Store) (id : Nat)
    (h : ∀ v ∈ s.visitors, v.id ≠ id) :
    visitorExit db now s id =
      { store := s, response := .json 500 (.thrown .nullRecord false), sent := [] } := by
  have h1 := mapRow_absent s id
    (fun v => { v with outDate := some db.date, outTime := some db.time }) h
  unfold visitorExit
  simp only [h1, findVisitor_none s id h]

/-- Instance of C14: id 9 in the sample store, whose ids are 1, 2 and 3. -/
theorem visitorExit_unknown_id_witness :
    (∀ v ∈ sampleStore.visitors, v.id ≠ 9) ∧
    visitorExit ⟨7, ⟨18, 30⟩⟩ ⟨18, 30⟩ sampleStore 9 =
      { store := sampleStore, response := .json 500 (.thrown .nullRecord false), sent := [] } :=
  ⟨by decide, visitorExit_unknown_id ⟨7, ⟨18, 30⟩⟩ ⟨18, 30⟩ sampleStore 9 (by decide)⟩

/-! ## Residents and their emails -/

theorem findResident_some (s : Store) (email : String) (r0 : Resident)
    (h : findResident s email = some r0) : r0 ∈ s.residents ∧ r0.email = email := by
  unfold findResident at h
  exact ⟨List.mem_of_find?_eq_some h, by simpa using List.find?_some h⟩

theorem findResident_none (s : Store) (email : String) (h : findResident s email = none) :
    email ∉ s.residents.map Resident.email := by
  unfold findResident at h
  rw [List.find?_eq_none] at h
  intro hm
  obtain ⟨r0, hr, he⟩ := List.mem_map.mp hm
  exact h r0 hr (by simpa using he)

theorem findResident_insertResident (s : Store) (name email : String)
    (h : findResident s email = none) :
    findResident (insertResident s name email) email =
      some { id := s.nextResidentId, name := name, email := email } := by
  unfold findResident at h ⊢
  unfold insertResident
  simp only [List.find?_append, h, Option.none_or]
  simp [List.find?]

/-- The residents table after the lookup-or-create step: untouched when
the email is known, one row longer otherwise. -/
theorem ensureResident_residents (rc : ResidentCreate) (s s1 : Store) (body : RequestBody)
    (h : ensureResident rc s body = .ok s1) :
    ((∃ r0, findResident s body.residentEmail = some r0) ∧ s1 = s) ∨
    (findResident s body.residentEmail = none ∧
      ∃ name, s1 = insertResident s name body.residentEmail ∧
        (rc = .created →
          name = if body.residentName = "" then "Resident" else body.residentName) ∧
        (∀ n, rc = .uniqueViolation (some n) → name = n)) := by
  unfold ensureResident at h
  cases hf : findResident s body.residentEmail with
  | some r0 =>
    rw [hf] at h
    cases h
    exact Or.inl ⟨⟨r0, rfl⟩, rfl⟩
  | none =>
    rw [hf] at h
    right
    refine ⟨rfl, ?_⟩
    cases rc with
    | created =>
      cases h
      exact ⟨_, rfl, (fun _ => rfl), (fun n hn => by cases hn)⟩
    | uniqueViolation winner =>
      cases winner with
      | none => cases h
      | some name =>
        cases h
        exact ⟨name, rfl, (fun hc => by cases hc), (fun n hn => by cases hn; rfl)⟩
    | failure => cases h

theorem insertResident_unique (s : Store) (hu : ResidentsUnique s) (name email : String)
    (h : findResident s email = none) :
    ResidentsUnique (insertResident s name email) ∧
      ((insertResident s name email).residents.map Resident.email).count email = 1 := by
  have hn := findResident_none s email h
  have hnd : ((insertResident s name email).residents.map Resident.email).Nodup := by
    show ((s.residents ++ [({ id := s.nextResidentId, name := name, email := email } : Resident)]).map
      Resident.email).Nodup
    rw [List.map_append]
    apply List.Nodup.append hu (by simp)
    intro a ha hb
    simp only [List.map_cons, List.map_nil, List.mem_singleton] at hb
    exact hn (hb ▸ ha)
  refine ⟨hnd, List.count_eq_one_of_mem hnd ?_⟩
  show email ∈ (s.residents ++ [({ id := s.nextResidentId, name := name, email := email } : Resident)]).map
    Resident.email
  simp

theorem visitorRequest_residents (env : MailEnv) (rc : ResidentCreate) (r : ℚ) (token : String)
    (now : Nat) (s : Store) (body : RequestBody) :
    (visitorRequest env rc r token now s body).store = s ∨
    ∃ s1 : Store, ensureResident rc s body = .ok s1 ∧
      (visitorRequest env rc r token now s body).store.residents = s1.residents ∧
      (visitorRequest env rc r token now s body).store.nextResidentId = s1.nextResidentId := by
  unfold visitorRequest
  cases he : ensureResident rc s body with
  | error resp => exact Or.inl rfl
  | ok s1 => exact Or.inr ⟨s1, rfl, rfl, rfl⟩

theorem step_residents_unique (s : Store) (hu : ResidentsUnique s) (op : Op) :
    ResidentsUnique (step s op) := by
  have keep : ∀ s2 : Store, s2.residents = s.residents → ResidentsUnique s2 := by
    intro s2 e
    unfold ResidentsUnique
    rw [e]
    exact hu
  cases op with
  | getVisitor id =>
    apply keep
    show (getVisitor s id).store.residents = s.residents
    unfold getVisitor; split <;> rfl
  | listVisitors => exact hu
  | visitorRequest env rc r token now body =>
    show ResidentsUnique (visitorRequest env rc r token now s body).store
    rcases visitorRequest_residents env rc r token now s body with h | ⟨s1, he, h, _⟩
    · rw [h]; exact hu
    · unfold ResidentsUnique
      rw [h]
      rcases ensureResident_residents rc s s1 body he with ⟨_, e⟩ | ⟨hf, name, e, _⟩
      · rw [e]; exact hu
      · rw [e]; exact (insertResident_unique s hu name body.residentEmail hf).1
  | visitorStatus env id status =>
    apply keep
    show (visitorStatus env s id status).store.residents = s.residents
    rcases visitorStatus_store env s id status with h | h
    · rw [h]
    · rw [h]; rfl
  | guardVerify db now visitorId code =>
    apply keep
    show (guardVerify db now s visitorId code).store.residents = s.residents
    rcases guardVerify_store db now s visitorId code with h | h
    · rw [h]
    · rw [h]; rfl
  | visitorExit db now id =>
    apply keep
    show (visitorExit db now s id).store.residents = s.residents
    rw [visitorExit_store]; rfl
  | approveLink env id token =>
    apply keep
    show (approveLink env s id token).store.residents = s.residents
    rcases approveLink_store env s id token with h | ⟨_, h⟩
    · rw [h]
    · rw [h]; rfl
  | rejectLink env id token =>
    apply keep
    show (rejectLink env s id token).store.residents = s.residents
    rcases rejectLink_store env s id token with h | ⟨_, h⟩
    · rw [h]
    · rw [h]; rfl

theorem run_residents_unique (ops : List Op) (s : Store) (hu : ResidentsUnique s) :
    ResidentsUnique (run s ops) := by
  induction ops generalizing s with
  | nil => exact hu
  | cons op t ih => exact ih (step s op) (step_residents_unique s hu op)

/-- C12: in a store whose resident emails are pairwise distinct, after a
successful request intake with resident email e exactly one resident has
email e. When a resident with email e existed, the residents table is
unchanged; otherwise it grows by exactly one row with email e, named
residentName, or "Resident" when that is empty, when the insertion of this
request succeeds, and carrying the name given by the other request when the
insertion lost the race and the re-fetch found that row. The emails stay
pairwise distinct after the intake and after every sequence of requests. -/
theorem visitorRequest_resident_unique (env : MailEnv) (rc : ResidentCreate) (r : ℚ)
    (token : String) (now : Nat) (s : Store) (body : RequestBody)
    (hu : ResidentsUnique s)
    (hok : ∃ b, (visitorRequest env rc r token now s body).response = .json 200 b) :
    ((visitorRequest env rc r token now s body).store.residents.map Resident.email).count
        body.residentEmail = 1 ∧
    (∀ r0, findResident s body.residentEmail = some r0 →
      (visitorRequest env rc r token now s body).store.residents = s.residents) ∧
    (findResident s body.residentEmail = none →
      ∃ name,
        (visitorRequest env rc r token now s body).store.residents =
          s.residents ++ [{ id := s.nextResidentId, name := name, email := body.residentEmail }] ∧
        (rc = .created →
          name = if body.residentName = "" then "Resident" else body.residentName) ∧
        (∀ n, rc = .uniqueViolation (some n) → name = n)) ∧
    ResidentsUnique (visitorRequest env rc r token now s body).store ∧
    ∀ ops : List Op, ResidentsUnique (run s ops) := by
  obtain ⟨b, hb⟩ := hok
  have hstep : ResidentsUnique (visitorRequest env rc r token now s body).store :=
    step_residents_unique s hu (.visitorRequest env rc r token now body)
  cases he : ensureResident rc s body with
  | error resp =>
    obtain ⟨b2, rfl⟩ := ensureResident_error rc s body resp he
    unfold visitorRequest at hb
    rw [he] at hb
    simp at hb
  | ok s1 =>
    have hres : (visitorRequest env rc r token now s body).store.residents = s1.residents := by
      unfold visitorRequest
      rw [he]
    refine ⟨?_, ?_, ?_, hstep, fun ops => run_residents_unique ops s hu⟩
    · rw [hres]
      rcases ensureResident_residents rc s s1 body he with ⟨⟨r0, hf⟩, e⟩ | ⟨hf, name, e, _⟩
      · rw [e]
        obtain ⟨hm, hem⟩ := findResident_some s body.residentEmail r0 hf
        exact List.count_eq_one_of_mem hu (List.mem_map.mpr ⟨r0, hm, hem⟩)
      · rw [e]
        exact (insertResident_unique s hu name body.residentEmail hf).2
    · intro r0 hf
      rw [hres]
      rcases ensureResident_residents rc s s1 body he with ⟨_, e⟩ | ⟨hf2, _⟩
      · rw [e]
      · rw [hf2] at hf; cases hf
    · intro hf
      rw [hres]
      rcases ensureResident_residents rc s s1 body he with ⟨⟨r0, hf2⟩, _⟩ | ⟨_, name, e, h1, h2⟩
      · rw [hf] at hf2; cases hf2
      · exact ⟨name, by rw [e]; rfl, h1, h2⟩

/-- Instance of C12: the first request creates the resident of its body. -/
theorem visitorRequest_resident_unique_witness :
    (ResidentsUnique Store.empty ∧
      ∃ b, (visitorRequest ⟨true, true⟩ .created (1 / 2) "c0ffee" 0 Store.empty
        sampleBody).response = .json 200 b) ∧
    ((visitorRequest ⟨true, true⟩ .created (1 / 2) "c0ffee" 0 Store.empty
        sampleBody).store.residents.map Resident.email).count "noor@example.org" = 1 ∧
    ResidentsUnique (visitorRequest ⟨true, true⟩ .created (1 / 2) "c0ffee" 0 Store.empty
      sampleBody).store :=
  ⟨⟨List.nodup_nil, _, rfl⟩,
    (visitorRequest_resident_unique ⟨true, true⟩ .created (1 / 2) "c0ffee" 0 Store.empty
      sampleBody List.nodup_nil ⟨_, rfl⟩).1,
    (visitorRequest_resident_unique ⟨true, true⟩ .created (1 / 2) "c0ffee" 0 Store.empty
      sampleBody List.nodup_nil ⟨_, rfl⟩).2.2.2.1⟩

/-! ## The race on resident creation -/

/-- C13: in request intake, when the lookup finds no resident for the
email and the insertion throws the unique-constraint error, a re-fetch that
finds the row lets intake go on and gives exactly the outcome it gives on the
store that held this resident from the start, with the visitor persisted; a
re-fetch that finds nothing answers 500 "Failed to create or find resident"
and persists nothing; any other failure of the insertion answers 500 and
persists nothing. -/
theorem visitorRequest_create_race (env : MailEnv) (r : ℚ) (token : String) (now : Nat)
    (s : Store) (body : RequestBody) (hnone : findResident s body.residentEmail = none) :
    (∀ (name : String) (rc2 : ResidentCreate),
      visitorRequest env (.uniqueViolation (some name)) r token now s body =
          visitorRequest env rc2 r token now (insertResident s name body.residentEmail) body ∧
        (visitorRequest env (.uniqueViolation (some name)) r token now s body).store.visitors =
          s.visitors ++ [newVisitorRow (insertResident s name body.residentEmail) body r token now] ∧
        (visitorRequest env (.uniqueViolation (some name)) r token now s body).response =
          .json 200 (.record
            (plain (newVisitorRow (insertResident s name body.residentEmail) body r token now)))) ∧
    visitorRequest env (.uniqueViolation none) r token now s body =
      { store := s, response := .json 500 (.error "Failed to create or find resident"),
        sent := [] } ∧
    visitorRequest env .failure r token now s body =
      { store := s, response := .json 500 (.thrown .residentCreateFailed true), sent := [] } := by
  refine ⟨?_, ?_, ?_⟩
  · intro name rc2
    have h1 : ensureResident (.uniqueViolation (some name)) s body =
        .ok (insertResident s name body.residentEmail) := by
      unfold ensureResident
      rw [hnone]
    have h2 : ensureResident rc2 (insertResident s name body.residentEmail) body =
        .ok (insertResident s name body.residentEmail) := by
      unfold ensureResident
      rw [findResident_insertResident s name body.residentEmail hnone]
    unfold visitorRequest
    rw [h1, h2]
    exact ⟨rfl, rfl, rfl⟩
  · unfold visitorRequest ensureResident
    rw [hnone]
  · unfold visitorRequest ensureResident
    rw [hnone]

/-- Instance of C13: the first request for a resident loses the race to a
request that named the resident "Zed". -/
theorem visitorRequest_create_race_witness :
    findResident Store.empty sampleBody.residentEmail = none ∧
    visitorRequest ⟨true, true⟩ (.uniqueViolation (some "Zed")) (1 / 2) "c0ffee" 0 Store.empty
        sampleBody =
      visitorRequest ⟨true, true⟩ .failure (1 / 2) "c0ffee" 0
        (insertResident Store.empty "Zed" sampleBody.residentEmail) sampleBody ∧
    visitorRequest ⟨true, true⟩ (.uniqueViolation none) (1 / 2) "c0ffee" 0 Store.empty sampleBody =
      { store := Store.empty, response := .json 500 (.error "Failed to create or find resident"),
        sent := [] } :=
  ⟨rfl,
    ((visitorRequest_create_race ⟨true, true⟩ (1 / 2) "c0ffee" 0 Store.empty sampleBody rfl).1
      "Zed" .failure).1,
    (visitorRequest_create_race ⟨true, true⟩ (1 / 2) "c0ffee" 0 Store.empty sampleBody rfl).2.1⟩

/-! ## A used link after a status update -/

/-- C2 at its failing input: right after the approve link the reject link
with the same id and token answers with the error page; once a status update
has set the visitor back to "pending", the reject link with the same id and
token answers with the success page and the status becomes "rejected", so the
link decides a second time. -/
theorem rejectLink_after_reset :
    (handle (run Store.empty decidedOps) (.rejectLink ⟨true, true⟩ 1 "c0ffee")).response =
      .html (errorPage "Invalid or expired rejection link.") ∧
    (findVisitor (run Store.empty reopenedOps) 1).map Visitor.status = some "pending" ∧
    (handle (run Store.empty reopenedOps) (.rejectLink ⟨true, true⟩ 1 "c0ffee")).response =
      .html (successPage "Visitor rejected." "Asha has been notified.") ∧
    (findVisitor (step (run Store.empty reopenedOps) (.rejectLink ⟨true, true⟩ 1 "c0ffee")) 1).map
      Visitor.status = some "rejected" :=
  ⟨rfl, rfl, rfl, rfl⟩

/-! ## Status values over the status column of the spec -/

theorem statusColumn_valid (status : String) (h : statusColumn status = true) :
    ValidStatus status := by
  unfold statusColumn at h
  simp only [Bool.or_eq_true, beq_iff_eq] at h
  rcases h with (h | h) | h
  · exact Or.inl h
  · exact Or.inr (Or.inl h)
  · exact Or.inr (Or.inr h)

/-- A request whose status update, if it is one, asks for one of the three
status values runs over the column of the spec as it does in `handle`. -/
theorem handleTyped_eq (s : Store) (op : Op) (h : op.targetValid) :
    handleTyped s op = handle s op := by
  cases op with
  | visitorStatus env id status =>
    have hc : statusColumn status = true := by
      rcases h with h | h | h <;> rw [h] <;> rfl
    show (if statusColumn status then visitorStatus env s id status else _) = _
    rw [if_pos hc]
    rfl
  | _ => rfl

theorem stepTyped_valid (s : Store) (hs : ∀ v ∈ s.visitors, ValidStatus v.status) (op : Op) :
    ∀ v ∈ (stepTyped s op).visitors, ValidStatus v.status := by
  cases op with
  | visitorStatus env id status =>
    by_cases hc : statusColumn status = true
    · have e : stepTyped s (.visitorStatus env id status) =
          step s (.visitorStatus env id status) := by
        show (if statusColumn status then visitorStatus env s id status else _).store = _
        rw [if_pos hc]
        rfl
      rw [e]
      exact step_valid s hs _ (statusColumn_valid status hc)
    · have e : stepTyped s (.visitorStatus env id status) = s := by
        show (if statusColumn status then visitorStatus env s id status else _).store = _
        rw [if_neg hc]
      rw [e]
      exact hs
  | getVisitor id => exact step_valid s hs (.getVisitor id) trivial
  | visitorRequest env rc r token now body =>
    exact step_valid s hs (.visitorRequest env rc r token now body) trivial
  | guardVerify db now visitorId code =>
    exact step_valid s hs (.guardVerify db now visitorId code) trivial
  | visitorExit db now id => exact step_valid s hs (.visitorExit db now id) trivial
  | listVisitors => exact step_valid s hs .listVisitors trivial
  | approveLink env id token => exact step_valid s hs (.approveLink env id token) trivial
  | rejectLink env id token => exact step_valid s hs (.rejectLink env id token) trivial

theorem runTyped_valid (ops : List Op) (s : Store)
    (hs : ∀ v ∈ s.visitors, ValidStatus v.status) :
    ∀ v ∈ (runTyped s ops).visitors, ValidStatus v.status := by
  induction ops generalizing s with
  | nil => exact hs
  | cons op t ih => exact ih (stepTyped s op) (stepTyped_valid s hs op)

/-- C10: in every state the server reaches from the empty database, over
the status column the spec gives, every visitor's status is one of "pending",
"approved" or "rejected". -/
theorem status_always_valid (s : Store) (h : ReachableTyped s) :
    ∀ v ∈ s.visitors, ValidStatus v.status := by
  obtain ⟨ops, rfl⟩ := h
  exact runTyped_valid ops Store.empty (fun _ hv => by cases hv)

/-- Instance of C10: a visitor request followed by a status update with the
target "archived", which the column refuses. -/
theorem status_always_valid_witness :
    ReachableTyped (runTyped Store.empty strayOps) ∧
    (runTyped Store.empty strayOps).visitors.map Visitor.status = ["pending"] ∧
    ∀ v ∈ (runTyped Store.empty strayOps).visitors, ValidStatus v.status :=
  ⟨⟨strayOps, rfl⟩, rfl, status_always_valid (runTyped Store.empty strayOps) ⟨strayOps, rfl⟩⟩

end IVisitor
